import Mathlib

/-!
Verification of the component-definition parsing and example-synthesis
pipeline of the vads-mcp repository.

The TypeScript sources under src/services/parsing are shallowly embedded
over lists of characters.  JavaScript strings become `Str := List Char`;
the few regular expressions the code uses are embedded as explicit
scanning functions that reproduce the leftmost-match and lazy/greedy
backtracking behaviour of the concrete patterns appearing in the source
(`interface\s+(Va\w+)\s*\{([\s\S]*?)\n\s*\}`, `\/\*\*([\s\S]*?)\*\//`,
`@tag\s+(.+)`, and the small replace/split patterns of
ComponentMatcher).  JavaScript `Map` objects keyed by strings become
insertion-ordered association lists with `mapSet`/`mapGet`.
-/

/-- JavaScript strings are embedded as lists of characters. -/
abbrev Str := List Char

/-- Conversion from a Lean string literal to the embedding type. -/
def strL (s : String) : Str :=
  s.data

/-- The characters matched by the whitespace class of JavaScript regular
expressions and trimmed by `String.prototype.trim` (ASCII part). -/
def isSpaceJS (c : Char) : Bool :=
  c = ' ' || c = '\t' || c = '\n' || c = '\x0d' || c = '\x0b' || c = '\x0c'

/-- Line terminators, which the `.` regex class does not match. -/
def isLineTerm (c : Char) : Bool :=
  c = '\n' || c = '\x0d'

/-- The word-character class of `\w` in JavaScript regular expressions. -/
def isWordChar (c : Char) : Bool :=
  (('a' ≤ c && c ≤ 'z') || ('A' ≤ c && c ≤ 'Z') || ('0' ≤ c && c ≤ '9') || c = '_')

/-- Characters kept by the normalization replace `[^a-z0-9-]` of
ComponentMatcher.normalizeComponentName. -/
def isLowerAlnumDash (c : Char) : Bool :=
  (('a' ≤ c && c ≤ 'z') || ('0' ≤ c && c ≤ '9') || c = '-')

/-- `String.prototype.toLowerCase` (ASCII part). -/
def lowerStr (s : Str) : Str :=
  s.map Char.toLower

/-- `String.prototype.trim`. -/
def trimJS (s : Str) : Str :=
  ((s.dropWhile isSpaceJS).reverse.dropWhile isSpaceJS).reverse

/-- Is `pat` a prefix of `s`?  Used to embed anchored literal matching. -/
def isPrefixL : Str → Str → Bool
  | [], _ => true
  | _ :: _, [] => false
  | p :: ps, c :: cs => p = c && isPrefixL ps cs

/-- `String.prototype.includes`: does `pat` occur as a substring of `s`? -/
def containsSub (s pat : Str) : Bool :=
  match s with
  | [] => isPrefixL pat []
  | _ :: cs => isPrefixL pat s || containsSub cs pat

/-- `String.prototype.indexOf`: position of the first occurrence. -/
def indexOfSub (s pat : Str) : Option Nat :=
  match s with
  | [] => if isPrefixL pat [] then some 0 else none
  | _ :: cs =>
    if isPrefixL pat s then some 0
    else (indexOfSub cs pat).map (· + 1)

/-- Position of the first occurrence of a single character. -/
def indexOfChar (s : Str) (c : Char) : Option Nat :=
  match s with
  | [] => none
  | d :: cs => if d = c then some 0 else (indexOfChar cs c).map (· + 1)

/-- `String.prototype.split` with a single-character separator. -/
def splitOnChar (sep : Char) (s : Str) : List Str :=
  match s with
  | [] => [[]]
  | c :: cs =>
    match splitOnChar sep cs with
    | [] => [[]]
    | piece :: rest => if c = sep then [] :: piece :: rest else (c :: piece) :: rest

/-- Remove the first occurrence of character `c` (the `replace(";", "")`
call of InterfaceParser). -/
def removeFirstChar (c : Char) : Str → Str
  | [] => []
  | d :: cs => if d = c then cs else d :: removeFirstChar c cs

/-- Remove the first occurrence of substring `pat` (the
`replace("va-", "")` call of ComponentMatcher). -/
def removeFirstSub (s pat : Str) : Str :=
  match s with
  | [] => []
  | c :: cs =>
    if isPrefixL pat s then s.drop pat.length
    else c :: removeFirstSub cs pat

/-- Join a list of strings with a separator (`Array.prototype.join`). -/
def joinSep (sep : Str) : List Str → Str
  | [] => []
  | [x] => x
  | x :: y :: rest => x ++ sep ++ joinSep sep (y :: rest)

/-- Concatenate a list of strings (`join("")`). -/
def joinAll : List Str → Str
  | [] => []
  | x :: rest => x ++ joinAll rest

/-- Decimal rendering of a natural number (template interpolation of a
JavaScript number, and `Number.prototype.toString`). -/
def natRepr (n : Nat) : Str :=
  (Nat.repr n).data

/-- The global replace `/['"]/g` of ValueGenerator: delete every single
or double quote character. -/
def stripQuotes (s : Str) : Str :=
  s.filter (fun c => !(c = Char.ofNat 34 || c = Char.ofNat 39))

/-- The global replace `/\s+/g → "-"`: each maximal whitespace run
becomes one hyphen.  The flag records whether the previous character was
inside a run. -/
def replaceWsRunsAux : Bool → Str → Str
  | _, [] => []
  | inRun, c :: cs =>
    if isSpaceJS c then (if inRun then [] else ['-']) ++ replaceWsRunsAux true cs
    else c :: replaceWsRunsAux false cs

/-- `replace(/\s+/g, "-")`. -/
def replaceWsRuns (s : Str) : Str :=
  replaceWsRunsAux false s

/-- One leftmost-scanning pass of `replace(/\s*-\s*/g, "-")`. -/
def collapseHyphenWsAux : Nat → Str → Str
  | 0, s => s
  | _, [] => []
  | fuel + 1, c :: cs =>
    match (c :: cs).dropWhile isSpaceJS with
    | '-' :: r2 => '-' :: collapseHyphenWsAux fuel (r2.dropWhile isSpaceJS)
    | _ => c :: collapseHyphenWsAux fuel cs

/-- `replace(/\s*-\s*/g, "-")`. -/
def collapseHyphenWs (s : Str) : Str :=
  collapseHyphenWsAux s.length s

/-- `String.prototype.split` on the regex `[\s-]+` (runs of whitespace
or hyphens), keeping the empty pieces JavaScript keeps. -/
def splitRunsAux (p : Char → Bool) : Nat → Str → Str → List Str
  | 0, cur, _ => [cur.reverse]
  | _, cur, [] => [cur.reverse]
  | fuel + 1, cur, c :: cs =>
    if p c then cur.reverse :: splitRunsAux p fuel [] (cs.dropWhile p)
    else splitRunsAux p fuel (c :: cur) cs

/-- `split(/[\s-]+/)`. -/
def splitRuns (p : Char → Bool) (s : Str) : List Str :=
  splitRunsAux p (s.length + 1) [] s

/-- Whitespace or hyphen, the class `[\s-]` of ComponentMatcher. -/
def isWsOrHyphen (c : Char) : Bool :=
  isSpaceJS c || c = '-'

/-!
## Data model (src/types.ts)
-/

/-- Enum ComponentStatus of src/types.ts. -/
inductive ComponentStatus where
  | recommended
  | stable
  | experimental
  | availableWithIssues
  | useWithCaution
  | deprecated
  | unknown
deriving DecidableEq

/-- Enum ComponentPurpose of src/types.ts. -/
inductive ComponentPurpose where
  | action
  | notices     -- NOTIFICATION in the source
  | input
  | navigation
  | container
  | display
deriving DecidableEq

/-- Enum ContentStrategy of src/types.ts. -/
inductive ContentStrategy where
  | visibleFirst
  | formLabel
  | structureFirst
  | unknown
deriving DecidableEq

/-- Enum ExampleType of src/types.ts. -/
inductive ExampleKind where
  | basic
  | state
  | accessibility
  | form
deriving DecidableEq

/-- ComponentProperty of src/types.ts: one parsed interface property. -/
structure ComponentProperty where
  name : Str
  type : Str
  optional : Bool
  description : Option Str
deriving DecidableEq

/-- ComponentBlock of MetadataExtractor.ts. -/
structure ComponentBlock where
  interfaceName : Str
  interfaceBody : Str
  componentName : Str
  maturityCategory : Str
  maturityLevel : Str
  guidanceHref : Option Str
  translations : List Str
  tagName : Str
deriving DecidableEq

/-- ComponentData of src/types.ts (the fields the parsing pipeline
populates; maturityLevel is carried as the raw string the source casts). -/
structure ComponentData where
  name : Str
  tagName : Str
  status : ComponentStatus
  maturityLevel : Str
  recommendation : Str
  properties : List ComponentProperty
deriving DecidableEq

/-- ComponentSemanticAnalysis of src/types.ts. -/
structure ComponentSemanticAnalysis where
  visibleTextProps : List ComponentProperty
  accessibilityProps : List ComponentProperty
  stateProps : List ComponentProperty
  configProps : List ComponentProperty
  eventProps : List ComponentProperty
  requiredProps : List ComponentProperty
  slotProps : List ComponentProperty
  isFormRelated : Bool
  isInteractive : Bool
  hasStates : Bool
  hasConditionalContent : Bool
  hasAccessibilityEnhancements : Bool
  hasSlots : Bool
  inferredPurpose : ComponentPurpose
  contentStrategy : ContentStrategy
deriving DecidableEq

/-- ComponentExample of src/types.ts. -/
structure ComponentExample where
  title : Str
  description : Str
  code : Str
  framework : Str
  purpose : ExampleKind
deriving DecidableEq

/-- CompositeInfo of CompositeDetector.ts. -/
structure ChildProp where
  name : Str
  required : Bool
deriving DecidableEq

/-- CompositeInfo of CompositeDetector.ts. -/
structure CompositeInfo where
  type : Str
  childElement : Str
  childCount : Nat
  childProps : List ChildProp
deriving DecidableEq

/-!
## MetadataExtractor (src/services/parsing/core/MetadataExtractor.ts)

`extractComponentBlocks` drives the global regex
`interface\s+(Va\w+)\s*\{([\s\S]*?)\n\s*\}` over the file text.  The
scanners below reproduce its leftmost-match behaviour: the lazy body
group stops at the first newline whose following whitespace run is
immediately closed by a brace, and `matchAll` resumes after each match.
-/

/-- One regex match of the interface pattern: the full matched text,
the captured interface name (group 1) and the captured body (group 2). -/
structure IfaceMatch where
  full : Str
  name : Str
  body : Str
deriving DecidableEq

/-- The lazy group `([\s\S]*?)` followed by `\n\s*\}`: split the input
at the first newline whose next non-whitespace character is a closing
brace.  Returns the body, the whitespace run between the newline and the
brace, and the rest of the input after the brace. -/
def findLazyEnd : Str → Option (Str × Str × Str)
  | [] => none
  | c :: cs =>
    if c = '\n' && (cs.dropWhile isSpaceJS).head? = some '\x7d' then
      some ([], cs.takeWhile isSpaceJS, (cs.dropWhile isSpaceJS).drop 1)
    else
      match findLazyEnd cs with
      | some (b, w, r) => some (c :: b, w, r)
      | none => none

/-- Attempt the interface pattern anchored after the keyword:
`\s+(Va\w+)\s*\{([\s\S]*?)\n\s*\}`. -/
def interfaceAfterKw (r0 : Str) : Option (IfaceMatch × Str) :=
  let w1 := r0.takeWhile isSpaceJS
  let r1 := r0.dropWhile isSpaceJS
  if w1.isEmpty then none
  else
    match r1 with
    | 'V' :: 'a' :: r2 =>
      let wd := r2.takeWhile isWordChar
      let r3 := r2.dropWhile isWordChar
      if wd.isEmpty then none
      else
        let w2 := r3.takeWhile isSpaceJS
        let r4 := r3.dropWhile isSpaceJS
        match r4 with
        | '\x7b' :: r5 =>
          match findLazyEnd r5 with
          | some (body, w3, rest) =>
            some ({ full := strL ("interface") ++ w1 ++ 'V' :: 'a' :: wd ++ w2
                            ++ '\x7b' :: body ++ '\n' :: w3 ++ ['\x7d'],
                    name := 'V' :: 'a' :: wd,
                    body := body }, rest)
          | none => none
        | _ => none
    | _ => none

/-- Attempt the interface pattern anchored at the current position. -/
def interfaceTryAt (s : Str) : Option (IfaceMatch × Str) :=
  if isPrefixL (strL ("interface")) s then interfaceAfterKw (s.drop 9)
  else none

/-- `matchAll` of the interface pattern: leftmost matches, resuming
after each match.  Each step consumes at least one character, so fuel
equal to the input length suffices. -/
def scanIfacesAux : Nat → Str → List IfaceMatch
  | 0, _ => []
  | _, [] => []
  | fuel + 1, c :: cs =>
    match interfaceTryAt (c :: cs) with
    | some (m, rest) => m :: scanIfacesAux fuel rest
    | none => scanIfacesAux fuel cs

/-- All matches of `interface\s+(Va\w+)\s*\{([\s\S]*?)\n\s*\}`. -/
def scanIfaces (s : Str) : List IfaceMatch :=
  scanIfacesAux s.length s

/-- The lazy comment body group of `\/\*\*([\s\S]*?)\*\//`: text up to
the first `*/`, with the rest of the input after it. -/
def findStarSlash : Str → Option (Str × Str)
  | [] => none
  | '*' :: '/' :: rest => some ([], rest)
  | c :: cs =>
    match findStarSlash cs with
    | some (b, r) => some (c :: b, r)
    | none => none

/-- `matchAll(/\/\*\*([\s\S]*?)\*\//g)`: the list of captured comment
bodies in document order. -/
def scanCommentsAux : Nat → Str → List Str
  | 0, _ => []
  | _, [] => []
  | fuel + 1, c :: cs =>
    if isPrefixL (strL ("/**")) (c :: cs) then
      match findStarSlash ((c :: cs).drop 3) with
      | some (body, rest) => body :: scanCommentsAux fuel rest
      | none => scanCommentsAux fuel cs
    else scanCommentsAux fuel cs

/-- All comment-body captures of the text. -/
def scanComments (s : Str) : List Str :=
  scanCommentsAux s.length s

/-- The suffix `\s+(.+)` of the line-tag patterns, with JavaScript
backtracking: `\s+` is greedy, `.` excludes line terminators, and the
capture is as long as possible for the longest viable `\s+`.  Returns
the capture of group 1 and the rest of the input after the match. -/
def matchWsDotPlus (r : Str) : Option (Str × Str) :=
  let ws := r.takeWhile isSpaceJS
  let rest := r.dropWhile isSpaceJS
  if ws.isEmpty then none
  else if !rest.isEmpty then
    some (rest.takeWhile (fun c => !isLineTerm c), rest.dropWhile (fun c => !isLineTerm c))
  else
    let revTail := (ws.drop 1).reverse
    match revTail.dropWhile isLineTerm with
    | [] => none
    | c :: _ => some ([c], (revTail.takeWhile isLineTerm).reverse)

/-- `match(/TAG\s+(.+)/)`: capture of group 1 at the first position
where the whole pattern matches. -/
def findTagAux (tag : Str) : Nat → Str → Option Str
  | 0, _ => none
  | _, [] => none
  | fuel + 1, c :: cs =>
    if isPrefixL tag (c :: cs) then
      match matchWsDotPlus ((c :: cs).drop tag.length) with
      | some (cap, _) => some cap
      | none => findTagAux tag fuel cs
    else findTagAux tag fuel cs

/-- First match of a line-tag pattern over the comment text. -/
def findTag (tag : Str) (s : Str) : Option Str :=
  findTagAux tag s.length s

/-- `matchAll(/TAG\s+(.+)/g)`: all captures, resuming after each match. -/
def scanTagsAux (tag : Str) : Nat → Str → List Str
  | 0, _ => []
  | _, [] => []
  | fuel + 1, c :: cs =>
    if isPrefixL tag (c :: cs) then
      match matchWsDotPlus ((c :: cs).drop tag.length) with
      | some (cap, restAfter) => cap :: scanTagsAux tag fuel restAfter
      | none => scanTagsAux tag fuel cs
    else scanTagsAux tag fuel cs

/-- All matches of a line-tag pattern over the comment text. -/
def scanTags (tag : Str) (s : Str) : List Str :=
  scanTagsAux tag s.length s

/-- The per-match body of extractComponentBlocks: take the text before
the first occurrence of the full matched interface text
(`content.indexOf(fullMatch)`), find the last `/** ... */` comment in
it, and extract the tagged fields; the block is dropped when the
component name or either maturity tag is missing. -/
def blockOfMatch (content : Str) (m : IfaceMatch) : Option ComponentBlock :=
  let beforeInterface := content.take ((indexOfSub content m.full).getD 0)
  match (scanComments beforeInterface).getLast? with
  | none => none
  | some commentText =>
    match findTag (strL ("@componentName")) commentText with
    | none => none
    | some cn =>
      match findTag (strL ("@maturityCategory")) commentText,
            findTag (strL ("@maturityLevel")) commentText with
      | some mc, some ml =>
        some { interfaceName := m.name,
               interfaceBody := m.body,
               componentName := trimJS cn,
               maturityCategory := trimJS mc,
               maturityLevel := trimJS ml,
               guidanceHref := (findTag (strL ("@guidanceHref")) commentText).map trimJS,
               translations := (scanTags (strL ("@translations")) commentText).map trimJS,
               tagName := strL ("va-") ++ lowerStr cn }
      | _, _ => none

/-- MetadataExtractor.extractComponentBlocks. -/
def extractComponentBlocks (content : Str) : List ComponentBlock :=
  (scanIfaces content).filterMap (blockOfMatch content)

/-!
## InterfaceParser (src/services/parsing/core/InterfaceParser.ts)
-/

/-- InterfaceParser.parsePropertyDefinition: split a trimmed line at the
first colon, read the optional marker and unquote the name. -/
def parsePropertyDefinition (line : Str) : Option ComponentProperty :=
  match indexOfChar line ':' with
  | none => none
  | some colonIndex =>
    let propPart := trimJS (line.take colonIndex)
    let typePart := trimJS (removeFirstChar ';' (line.drop (colonIndex + 1)))
    let isOptional := propPart.getLast? = some '?'
    let n0 := if isOptional then propPart.dropLast else propPart
    let n1 :=
      if n0.head? = some (Char.ofNat 34) && n0.getLast? = some (Char.ofNat 34) then
        (n0.drop 1).dropLast
      else n0
    some { name := trimJS n1, type := trimJS typePart, optional := isOptional,
           description := none }

/-- The three anchored replaces cleaning one JSDoc comment line:
`^\/\*\*\s*`, `\s*\*\/$` and `^\*\s*`, applied in that order. -/
def cleanCommentLine (t : Str) : Str :=
  let f1 := if isPrefixL (strL ("/**")) t then (t.drop 3).dropWhile isSpaceJS else t
  let f2 :=
    if (f1.reverse.take 2) = (strL ("*/")).reverse then
      ((f1.reverse.drop 2).dropWhile isSpaceJS).reverse
    else f1
  if f2.head? = some '*' then (f2.drop 1).dropWhile isSpaceJS else f2

/-- The trailing `currentComment.trim() || undefined` of the parser. -/
def descriptionOf (currentComment : Str) : Option Str :=
  let d := trimJS currentComment
  if d.isEmpty then none else some d

/-- The line loop of InterfaceParser.parseInterfaceProperties, carrying
the pending comment buffer. -/
def parsePropsLines : List Str → Str → List ComponentProperty
  | [], _ => []
  | line :: restLines, currentComment =>
    let t := trimJS line
    if t.isEmpty || containsSub t (strL ("interface"))
        || t = strL ("\x7b") || t = strL ("\x7d") then
      parsePropsLines restLines currentComment
    else if isPrefixL (strL ("/**")) t || isPrefixL (strL ("*")) t then
      let clean := cleanCommentLine t
      parsePropsLines restLines
        (if clean.isEmpty then currentComment else currentComment ++ clean ++ strL (" "))
    else if containsSub t (strL (":")) && t.getLast? = some ';' then
      match parsePropertyDefinition t with
      | some p =>
        { p with description := descriptionOf currentComment }
          :: parsePropsLines restLines []
      | none => parsePropsLines restLines []
    else parsePropsLines restLines currentComment

/-- InterfaceParser.parseInterfaceProperties. -/
def parseInterfaceProperties (interfaceBody : Str) : List ComponentProperty :=
  parsePropsLines (splitOnChar '\n' interfaceBody) []

/-!
## PropertyClassifier (src/services/parsing/analysis/PropertyClassifier.ts)
-/

/-- The visible-content vocabulary. -/
def visibleContentPatterns : List Str :=
  [strL ("text"), strL ("label"), strL ("headline"), strL ("title"),
   strL ("message"), strL ("content"), strL ("description"),
   strL ("placeholder"), strL ("value"), strL ("children"), strL ("header"),
   strL ("footer"), strL ("caption"), strL ("summary"), strL ("detail")]

/-- The accessibility vocabulary. -/
def accessibilityPatterns : List Str :=
  [strL ("aria-"), strL ("role"), strL ("tabindex"), strL ("alt"),
   strL ("title"), strL ("describedby"), strL ("labelledby"), strL ("live"),
   strL ("atomic"), strL ("relevant"), strL ("busy"), strL ("disabled"),
   strL ("readonly")]

/-- The state vocabulary. -/
def statePatterns : List Str :=
  [strL ("disabled"), strL ("loading"), strL ("error"), strL ("success"),
   strL ("warning"), strL ("active"), strL ("selected"), strL ("checked"),
   strL ("expanded"), strL ("collapsed"), strL ("visible"), strL ("hidden"),
   strL ("open"), strL ("closed"), strL ("focused")]

/-- The configuration vocabulary. -/
def configPatterns : List Str :=
  [strL ("size"), strL ("variant"), strL ("theme"), strL ("color"),
   strL ("type"), strL ("format"), strL ("layout"), strL ("position"),
   strL ("align"), strL ("direction"), strL ("orientation")]

/-- The form-related vocabulary. -/
def formPatterns : List Str :=
  [strL ("name"), strL ("value"), strL ("required"), strL ("validation"),
   strL ("error"), strL ("invalid"), strL ("valid"), strL ("pattern"),
   strL ("min"), strL ("max"), strL ("step"), strL ("multiple"),
   strL ("accept"), strL ("autocomplete")]

/-- The conditional vocabulary. -/
def conditionalPatterns : List Str :=
  [strL ("show"), strL ("hide"), strL ("if"), strL ("when"),
   strL ("unless"), strL ("conditional")]

/-- PropertyClassifier.isAccessibilityProp. -/
def isAccessibilityProp (propName _propType : Str) : Bool :=
  accessibilityPatterns.any (containsSub (lowerStr propName))

/-- PropertyClassifier.isVisibleContentProp: content vocabulary hit and
not an accessibility property. -/
def isVisibleContentProp (propName propType : Str) : Bool :=
  visibleContentPatterns.any (containsSub (lowerStr propName))
    && !isAccessibilityProp propName propType

/-- PropertyClassifier.isConfigProp. -/
def isConfigProp (propName _propType : Str) : Bool :=
  configPatterns.any (containsSub (lowerStr propName))

/-- PropertyClassifier.isStateProp. -/
def isStateProp (propName propType : Str) : Bool :=
  statePatterns.any (containsSub (lowerStr propName))
    || (containsSub (lowerStr propType) (strL ("boolean"))
        && !isConfigProp propName propType)

/-- PropertyClassifier.isEventProp. -/
def isEventProp (propName : Str) : Bool :=
  isPrefixL (strL ("on")) (lowerStr propName)

/-- PropertyClassifier.isSlotProp. -/
def isSlotProp (propName : Str) : Bool :=
  containsSub (lowerStr propName) (strL ("slot"))

/-- PropertyClassifier.isFormRelatedProp. -/
def isFormRelatedProp (propName : Str) : Bool :=
  formPatterns.any (containsSub (lowerStr propName))

/-- PropertyClassifier.isConditionalProp. -/
def isConditionalProp (propName : Str) : Bool :=
  conditionalPatterns.any (containsSub (lowerStr propName))

/-!
## PurposeInference (src/services/parsing/analysis/PurposeInference.ts)
-/

/-- PurposeInference.inferPurposeFromProperties: first-match-wins
decision list over the aggregated classification. -/
def inferPurposeFromProperties (a : ComponentSemanticAnalysis) : ComponentPurpose :=
  if a.isFormRelated then
    if a.visibleTextProps.any (fun p => containsSub (lowerStr p.name) (strL ("button"))) then
      ComponentPurpose.action
    else ComponentPurpose.input
  else if a.visibleTextProps.any (fun p =>
      containsSub (lowerStr p.name) (strL ("alert"))
        || containsSub (lowerStr p.name) (strL ("message"))
        || containsSub (lowerStr p.name) (strL ("notification"))) then
    ComponentPurpose.notices
  else if a.visibleTextProps.any (fun p =>
      containsSub (lowerStr p.name) (strL ("link"))
        || containsSub (lowerStr p.name) (strL ("href"))
        || containsSub (lowerStr p.name) (strL ("nav"))) then
    ComponentPurpose.navigation
  else if a.visibleTextProps.any (fun p =>
      containsSub (lowerStr p.name) (strL ("button"))
        || containsSub (lowerStr p.name) (strL ("click"))) then
    ComponentPurpose.action
  else if a.hasSlots || a.visibleTextProps.length > 2 then
    ComponentPurpose.container
  else ComponentPurpose.display

/-- PurposeInference.determineContentStrategy. -/
def determineContentStrategy (a : ComponentSemanticAnalysis) : ContentStrategy :=
  if a.isFormRelated && a.visibleTextProps.any (fun p =>
      containsSub (lowerStr p.name) (strL ("label"))) then
    ContentStrategy.formLabel
  else if a.visibleTextProps.length > 0 then ContentStrategy.visibleFirst
  else if a.hasSlots then ContentStrategy.structureFirst
  else ContentStrategy.unknown

/-!
## SemanticAnalyzer (src/services/parsing/analysis/SemanticAnalyzer.ts)
-/

/-- The initial analysis record of analyzeComponentSemantics (the source
initializes the purpose and strategy with empty strings and overwrites
both unconditionally at the end, so the placeholders are unobservable). -/
def initialAnalysis : ComponentSemanticAnalysis :=
  { visibleTextProps := [], accessibilityProps := [], stateProps := [],
    configProps := [], eventProps := [], requiredProps := [], slotProps := [],
    isFormRelated := false, isInteractive := false, hasStates := false,
    hasConditionalContent := false, hasAccessibilityEnhancements := false,
    hasSlots := false, inferredPurpose := ComponentPurpose.display,
    contentStrategy := ContentStrategy.unknown }

/-- One iteration of the property loop of analyzeComponentSemantics; the
classifiers receive the lowercased name and type, as in the source. -/
def analyzeStep (a : ComponentSemanticAnalysis) (p : ComponentProperty) :
    ComponentSemanticAnalysis :=
  let propName := lowerStr p.name
  let propType := lowerStr p.type
  let a := if !p.optional then { a with requiredProps := a.requiredProps ++ [p] } else a
  let a := if isVisibleContentProp propName propType then
      { a with visibleTextProps := a.visibleTextProps ++ [p] } else a
  let a := if isAccessibilityProp propName propType then
      { a with accessibilityProps := a.accessibilityProps ++ [p],
               hasAccessibilityEnhancements := true } else a
  let a := if isStateProp propName propType then
      { a with stateProps := a.stateProps ++ [p], hasStates := true } else a
  let a := if isConfigProp propName propType then
      { a with configProps := a.configProps ++ [p] } else a
  let a := if isEventProp propName then
      { a with eventProps := a.eventProps ++ [p], isInteractive := true } else a
  let a := if isSlotProp propName then
      { a with slotProps := a.slotProps ++ [p], hasSlots := true } else a
  let a := if isFormRelatedProp propName then { a with isFormRelated := true } else a
  if isConditionalProp propName then { a with hasConditionalContent := true } else a

/-- SemanticAnalyzer.analyzeComponentSemantics (the `component` argument
of the source is unused beyond its property list). -/
def analyzeComponentSemantics (properties : List ComponentProperty) :
    ComponentSemanticAnalysis :=
  let a0 := properties.foldl analyzeStep initialAnalysis
  { a0 with inferredPurpose := inferPurposeFromProperties a0,
            contentStrategy := determineContentStrategy a0 }

/-!
## ValueGenerator (src/services/parsing/generation/ValueGenerator.ts)
-/

/-- The first, array-typed branch of generateContextualValue. -/
def arrayValueFor (propName : Str) : Str :=
  if containsSub propName (strL ("breadcrumb")) then
    strL ("[\x7b\"href\": \"/\", \"label\": \"Home\"\x7d, \x7b\"label\": \"Current Page\"\x7d]")
  else if containsSub propName (strL ("option")) then
    strL ("[\x7b\"label\": \"Option 1\", \"value\": \"1\"\x7d, \x7b\"label\": \"Option 2\", \"value\": \"2\"\x7d]")
  else strL ("[]")

/-- The union-type branch: split at every pipe, trim and strip quotes,
and keep the options that are non-empty and not the literal text
undefined. -/
def meaningfulOptions (propType : Str) : List Str :=
  ((splitOnChar '|' propType).map (fun s => stripQuotes (trimJS s))).filter
    (fun o => !(o = strL ("undefined")) && !o.isEmpty)

/-- The body of the `switch (analysis.inferredPurpose)` statement of
generateContextualValue: the curated per-purpose literals; `none` models
reaching the `break` of a case (or no case at all). -/
def purposeSwitchValue (purpose : ComponentPurpose) (propName : Str) : Option Str :=
  match purpose with
  | ComponentPurpose.action =>
    if propName = strL ("text") then some (strL ("Submit Application"))
    else if propName = strL ("label") then some (strL ("Submit your application"))
    else if containsSub propName (strL ("submit")) then some (strL ("true"))
    else if propName = strL ("type") then some (strL ("submit"))
    else none
  | ComponentPurpose.notices =>
    if containsSub propName (strL ("headline")) then some (strL ("Important Update"))
    else if propName = strL ("status") then some (strL ("info"))
    else if propName = strL ("visible") then some (strL ("true"))
    else none
  | ComponentPurpose.input =>
    if propName = strL ("label") then some (strL ("Email Address"))
    else if propName = strL ("name") then some (strL ("email"))
    else if propName = strL ("required") then some (strL ("true"))
    else none
  | ComponentPurpose.navigation =>
    if propName = strL ("label") then some (strL ("Navigation"))
    else if containsSub propName (strL ("href")) then some (strL ("/example-page"))
    else none
  | ComponentPurpose.container =>
    if containsSub propName (strL ("headline")) then some (strL ("Service Information"))
    else none
  | ComponentPurpose.display => none

/-- The string case of the trailing type-keyword fallback. -/
def stringValueFor (propName : Str) : Str :=
  if containsSub propName (strL ("aria")) || containsSub propName (strL ("label")) then
    strL ("Descriptive label for screen readers")
  else if propName = strL ("text") then strL ("Click me")
  else if propName = strL ("headline") then strL ("Important Notice")
  else if propName = strL ("status") then strL ("info")
  else strL ("Example value")

/-- The number case of the trailing type-keyword fallback. -/
def numberValueFor (propName : Str) : Str :=
  if containsSub propName (strL ("level")) then strL ("2")
  else if containsSub propName (strL ("timeout")) then strL ("5000")
  else strL ("1")

/-- The trailing boolean/number/object/string if-chain of
generateContextualValue. -/
def typeKeywordFallback (propName propType : Str) : Option Str :=
  if containsSub propType (strL ("boolean")) then some (strL ("true"))
  else if containsSub propType (strL ("number")) then some (numberValueFor propName)
  else if containsSub propType (strL ("object")) then some (strL ("\x7b\x7d"))
  else if containsSub propType (strL ("string")) then some (stringValueFor propName)
  else none

/-- ValueGenerator.generateContextualValue. -/
def generateContextualValue (prop : ComponentProperty)
    (a : ComponentSemanticAnalysis) : Option Str :=
  let propName := lowerStr prop.name
  let propType := lowerStr prop.type
  if containsSub propType (strL ("array")) || containsSub propType (strL ("[]")) then
    some (arrayValueFor propName)
  else
    match (if containsSub propType (strL ("|")) then
             (meaningfulOptions propType).head?
           else none) with
    | some o => some o
    | none =>
      match purposeSwitchValue a.inferredPurpose propName with
      | some v => some v
      | none => typeKeywordFallback propName propType

/-!
## CompositeDetector (src/services/parsing/generation/CompositeDetector.ts)
-/

/-- CompositeDetector.detectCompositeComponent: tag-name substring
dispatch; the analysis argument is unused in the source. -/
def detectCompositeComponent (tagName : Str)
    (_a : ComponentSemanticAnalysis) : Option CompositeInfo :=
  if containsSub tagName (strL ("radio")) || containsSub tagName (strL ("checkbox")) then
    some { type := strL ("form-choice-group"),
           childElement := if containsSub tagName (strL ("radio")) then
               strL ("va-radio-option")
             else strL ("va-checkbox-option"),
           childCount := 3,
           childProps := [{ name := strL ("label"), required := true },
                          { name := strL ("name"), required := true },
                          { name := strL ("value"), required := true }] }
  else if containsSub tagName (strL ("accordion")) then
    some { type := strL ("collapsible-container"),
           childElement := strL ("va-accordion-item"),
           childCount := 2,
           childProps := [{ name := strL ("header"), required := true }] }
  else if containsSub tagName (strL ("button-group")) then
    some { type := strL ("action-group"),
           childElement := strL ("va-button"),
           childCount := 2,
           childProps := [{ name := strL ("text"), required := true }] }
  else none

/-- The rotating label list of the form-choice-group case. -/
def choiceGroupLabels : List Str :=
  [strL ("Sojourner Truth"), strL ("Frederick Douglass"),
   strL ("Booker T. Washington"), strL ("George Washington Carver")]

/-- CompositeDetector.generateChildPropValue (`index` is 1-based; the
`options[index-1] || ...` fallback of the source is the JavaScript
falsy-default on an out-of-range access). -/
def generateChildPropValue (propDef : ChildProp) (info : CompositeInfo)
    (index : Nat) : Str :=
  let propName := lowerStr propDef.name
  if info.type = strL ("form-choice-group") then
    if propName = strL ("label") then
      (choiceGroupLabels.get? (index - 1)).getD (strL ("Option ") ++ natRepr index)
    else if propName = strL ("name") then strL ("group")
    else if propName = strL ("value") then natRepr index
    else strL ("value-") ++ natRepr index
  else if info.type = strL ("collapsible-container") then
    if propName = strL ("header") then strL ("Section ") ++ natRepr index
    else strL ("value-") ++ natRepr index
  else if info.type = strL ("action-group") then
    if propName = strL ("text") then
      (if index = 1 then strL ("Continue") else strL ("Back"))
    else strL ("value-") ++ natRepr index
  else strL ("value-") ++ natRepr index

/-- CompositeDetector.generateChildProps. -/
def generateChildProps (info : CompositeInfo) (index : Nat) : Str :=
  info.childProps.foldl
    (fun acc propDef =>
      acc ++ strL (" ") ++ propDef.name ++ strL ("=\"")
          ++ generateChildPropValue propDef info index ++ strL ("\""))
    []

/-- The markup of one generated child element. -/
def childMarkup (info : CompositeInfo) (index : Nat) : Str :=
  strL ("\n  <") ++ info.childElement ++ generateChildProps info index
    ++ strL ("></") ++ info.childElement ++ strL (">")

/-- CompositeDetector.generateCompositeChildren. -/
def generateCompositeChildren (info : CompositeInfo) : Str :=
  joinAll ((List.range info.childCount).map (fun j => childMarkup info (j + 1)))
    ++ strL ("\n")

/-- CompositeDetector.generateSlotContent. -/
def generateSlotContent (a : ComponentSemanticAnalysis) : Str :=
  if a.hasSlots then strL ("\n  <!-- Slot content goes here -->\n") else []

/-!
## ExampleGenerator (src/services/parsing/generation/ExampleGenerator.ts)
-/

/-- One key-value attribute rendering `name="value"`. -/
def attrKV (name value : Str) : Str :=
  name ++ strL ("=\"") ++ value ++ strL ("\"")

/-- The required-property loop of generateSemanticBasicExample: each
required property with a generated value is rendered, boolean-typed
properties whose value is the literal true as a bare attribute name. -/
def renderBasicRequired (a : ComponentSemanticAnalysis) : List Str :=
  a.requiredProps.foldl
    (fun acc p =>
      match generateContextualValue p a with
      | none => acc
      | some v =>
        acc ++ [if containsSub p.type (strL ("boolean")) && v = strL ("true") then p.name
                else attrKV p.name v])
    []

/-- One iteration of the VISIBLE_FIRST loop of
generateSemanticBasicExample. -/
def visibleFirstStep (a : ComponentSemanticAnalysis) (acc : List Str)
    (p : ComponentProperty) : List Str :=
  if a.requiredProps.contains p then acc
  else
    match generateContextualValue p a with
    | none => acc
    | some v => acc ++ [attrKV p.name v]

/-- The attribute list assembled by generateSemanticBasicExample:
required properties first, then the content-strategy extras. -/
def basicAttrs (a : ComponentSemanticAnalysis) : List Str :=
  let base := renderBasicRequired a
  match a.contentStrategy with
  | ContentStrategy.visibleFirst =>
    (a.visibleTextProps.take 2).foldl (visibleFirstStep a) base
  | ContentStrategy.formLabel =>
    match a.visibleTextProps.find? (fun p =>
        containsSub (lowerStr p.name) (strL ("label"))) with
    | some labelProp =>
      if a.requiredProps.contains labelProp then base
      else
        match generateContextualValue labelProp a with
        | some v => base ++ [attrKV labelProp.name v]
        | none => base
    | none => base
  | _ => base

/-- `attributes.length > 0 ? " " + attributes.join(" ") : ""`. -/
def basicAttrString (a : ComponentSemanticAnalysis) : Str :=
  if basicAttrs a = [] then [] else strL (" ") ++ joinSep (strL (" ")) (basicAttrs a)

/-- The inner content of the basic example: composite children when the
tag is a composite component, else the slot placeholder. -/
def basicInnerContent (tagName : Str) (a : ComponentSemanticAnalysis) : Str :=
  match detectCompositeComponent tagName a with
  | some compositeInfo => generateCompositeChildren compositeInfo
  | none => generateSlotContent a

/-- ExampleGenerator.generateSemanticBasicExample. -/
def generateSemanticBasicExample (tagName : Str)
    (a : ComponentSemanticAnalysis) : ComponentExample :=
  { title := strL ("Basic Usage"),
    description := strL ("Basic implementation of the ") ++ tagName
      ++ strL (" component with essential properties."),
    code := strL ("<") ++ tagName ++ basicAttrString a ++ strL (">")
      ++ basicInnerContent tagName a ++ strL ("</") ++ tagName ++ strL (">"),
    framework := strL ("html"),
    purpose := ExampleKind.basic }

/-- ExampleGenerator.generateStateVariationExample. -/
def generateStateVariationExample (tagName : Str)
    (a : ComponentSemanticAnalysis) : ComponentExample :=
  { title := strL ("State Variations"),
    description := strL ("Examples showing different states of the ") ++ tagName
      ++ strL (" component."),
    code := joinSep (strL ("\n"))
      ([strL ("<!-- Default state -->"),
        strL ("<") ++ tagName ++ strL ("></") ++ tagName ++ strL (">"),
        []] ++
       ((a.stateProps.take 2).map (fun p =>
          [strL ("<!-- ") ++ p.name ++ strL (" state -->"),
           strL ("<") ++ tagName ++ strL (" ") ++ p.name ++ strL ("></")
             ++ tagName ++ strL (">")])).flatten),
    framework := strL ("html"),
    purpose := ExampleKind.state }

/-- ExampleGenerator.generateAccessibilityExample (the
`value || "Accessible description"` fallback is the JavaScript falsy
default, also taken on an empty generated value). -/
def generateAccessibilityExample (tagName : Str)
    (a : ComponentSemanticAnalysis) : ComponentExample :=
  { title := strL ("Accessibility Enhanced"),
    description := tagName ++ strL (" component with enhanced accessibility features."),
    code := strL ("<") ++ tagName ++ strL (" ")
      ++ joinSep (strL (" "))
           ((a.accessibilityProps.take 2).map (fun p =>
              attrKV p.name
                (match generateContextualValue p a with
                 | some v => if v.isEmpty then strL ("Accessible description") else v
                 | none => strL ("Accessible description"))))
      ++ strL ("></") ++ tagName ++ strL (">"),
    framework := strL ("html"),
    purpose := ExampleKind.accessibility }

/-- ExampleGenerator.generateFormContextExample. -/
def generateFormContextExample (tagName : Str)
    (a : ComponentSemanticAnalysis) : ComponentExample :=
  { title := strL ("Form Context"),
    description := tagName ++ strL (" component used within a form context."),
    code := strL ("<form>\n  <") ++ tagName ++ strL (" ")
      ++ joinSep (strL (" "))
           ((a.requiredProps.filter (fun p => isFormRelatedProp p.name)).map (fun p =>
              attrKV p.name
                (match generateContextualValue p a with
                 | some v => if v.isEmpty then strL ("form-value") else v
                 | none => strL ("form-value"))))
      ++ strL (" required></") ++ tagName ++ strL (">\n</form>"),
    framework := strL ("html"),
    purpose := ExampleKind.form }

/-- ExampleGenerator.generateExamples as invoked through
ComponentParserFactory.generateExamples: the analysis option passed in
is the one computed by SemanticAnalyzer over the component's
properties.  The trailing `.filter(Boolean)` of the source never drops
an element (all pushed examples are objects). -/
def generateExamples (component : ComponentData) : List ComponentExample :=
  let a := analyzeComponentSemantics component.properties
  [generateSemanticBasicExample component.tagName a]
    ++ (if a.hasStates then [generateStateVariationExample component.tagName a] else [])
    ++ (if a.hasAccessibilityEnhancements then
          [generateAccessibilityExample component.tagName a] else [])
    ++ (if a.isFormRelated then [generateFormContextExample component.tagName a] else [])

/-!
## ComponentMatcher (src/services/parsing/core/ComponentMatcher.ts)
-/

/-- ComponentMatcher.normalizeComponentName. -/
def normalizeComponentName (name : Str) : Str :=
  (replaceWsRuns (lowerStr name)).filter isLowerAlnumDash

/-- ComponentMatcher.isNameMatch: the ordered guard chain of fuzzy
matching rules. -/
def isNameMatch (inputName : Str) (component : ComponentData) : Bool :=
  let input := lowerStr inputName
  let componentName := lowerStr component.name
  let tagName := lowerStr component.tagName
  if componentName = input then true
  else if tagName = strL ("va-") ++ input then true
  else
    let normalizedInput := normalizeComponentName input
    let normalizedComponent := normalizeComponentName component.name
    let normalizedTag := removeFirstSub component.tagName (strL ("va-"))
    if normalizedComponent = normalizedInput then true
    else if normalizedTag = normalizedInput then true
    else
      let inputKebab := replaceWsRuns input
      let componentKebab := collapseHyphenWs (replaceWsRuns componentName)
      if componentKebab = inputKebab then true
      else
        let inputWords := splitRuns isWsOrHyphen input
        let componentWords := splitRuns isWsOrHyphen componentName
        if inputWords.length = componentWords.length then
          (inputWords.zip componentWords).all (fun pr => pr.1 = lowerStr pr.2)
        else false

/-- A JavaScript Map from strings to component records, as an
insertion-ordered association list. -/
abbrev ComponentMap := List (Str × ComponentData)

/-- `Map.prototype.get`. -/
def mapGet (m : ComponentMap) (k : Str) : Option ComponentData :=
  (m.find? (fun e => e.1 = k)).map (fun e => e.2)

/-- `Map.prototype.set`: replace the value in place when the key is
present (a JavaScript Map never holds a key twice, so replacing the
first occurrence is the general map-object semantics), append
otherwise. -/
def mapSet : ComponentMap → Str → ComponentData → ComponentMap
  | [], k, v => [(k, v)]
  | e :: m, k, v => if e.1 = k then (e.1, v) :: m else e :: mapSet m k v

/-- ComponentMatcher.findComponentByName: exact map lookup, then the
fuzzy scan over the map values in insertion order.  (The unused local
`normalizedName` of the source is dropped.) -/
def findComponentByName (componentName : Str) (components : ComponentMap) :
    Option ComponentData :=
  match mapGet components componentName with
  | some exactMatch => some exactMatch
  | none => (components.map (fun e => e.2)).find? (fun c => isNameMatch componentName c)

/-!
## ComponentParserFactory (src/services/parsing/ComponentParserFactory.ts)
-/

/-- ComponentParserFactory.determineComponentStatus. -/
def determineComponentStatus (maturityCategory maturityLevel : Str) : ComponentStatus :=
  if lowerStr maturityCategory = strL ("caution") then ComponentStatus.useWithCaution
  else if lowerStr maturityLevel = strL ("best_practice") then ComponentStatus.recommended
  else if lowerStr maturityLevel = strL ("deployed") then ComponentStatus.stable
  else if lowerStr maturityLevel = strL ("candidate") then ComponentStatus.experimental
  else if lowerStr maturityLevel = strL ("available") then ComponentStatus.availableWithIssues
  else if lowerStr maturityLevel = strL ("deprecated") then ComponentStatus.deprecated
  else ComponentStatus.unknown

/-- ComponentParserFactory.getRecommendation. -/
def getRecommendation (maturityCategory maturityLevel : Str) : Str :=
  if lowerStr maturityCategory = strL ("caution") then
    strL ("Use with caution - this component may have known issues or limitations")
  else if lowerStr maturityLevel = strL ("best_practice") then
    strL ("Recommended for production use - follows VA design system best practices")
  else if lowerStr maturityLevel = strL ("deployed") then
    strL ("Stable and safe to use in production applications")
  else if lowerStr maturityLevel = strL ("candidate") then
    strL ("Experimental - suitable for testing but may change before release")
  else if lowerStr maturityLevel = strL ("available") then
    strL ("Available but may have issues - review carefully before use")
  else if lowerStr maturityLevel = strL ("deprecated") then
    strL ("Deprecated - do not use, component will be removed in future versions")
  else strL ("Status unknown - verify maturity level before use")

/-- The ComponentData built from one block inside
parseComponentMetadata (the `||` fallbacks are the JavaScript falsy
defaults on empty strings). -/
def buildComponent (block : ComponentBlock) : ComponentData :=
  { name := block.componentName,
    tagName := if block.tagName.isEmpty then
        strL ("va-") ++ lowerStr block.componentName
      else block.tagName,
    status := determineComponentStatus block.maturityCategory block.maturityLevel,
    maturityLevel := if block.maturityLevel.isEmpty then strL ("unknown")
      else block.maturityLevel,
    recommendation := getRecommendation block.maturityCategory block.maturityLevel,
    properties := parseInterfaceProperties block.interfaceBody }

/-- The per-block guard of parseComponentMetadata. -/
def goodBlock (block : ComponentBlock) : Bool :=
  !block.componentName.isEmpty && !block.interfaceName.isEmpty

/-- The `components.set(component.name, component)` call of one loop
iteration of parseComponentMetadata. -/
def parseStep (components : ComponentMap) (block : ComponentBlock) : ComponentMap :=
  mapSet components (buildComponent block).name (buildComponent block)

/-- ComponentParserFactory.parseComponentMetadata. -/
def parseComponentMetadata (content : Str) : ComponentMap :=
  (extractComponentBlocks content).foldl
    (fun components block =>
      if goodBlock block then parseStep components block else components)
    []

/-!
## Concrete inputs used by the scenario theorems and counterexamples
-/

/-- The input text of the specification scenario, exactly as written:
the whole interface declaration sits on one line, with no newline before
its closing brace. -/
def scenarioOneLineInput : Str :=
  strL ("/** @componentName Button\n * @maturityCategory use\n * @maturityLevel best_practice */\ninterface VaButton \x7b text: string; disabled?: boolean; \x7d")

/-- The same scenario with the two properties on lines of their own, so
that the interface pattern (which requires a newline before the closing
brace) can match. -/
def scenarioMultiLineInput : Str :=
  strL ("/** @componentName Button\n * @maturityCategory use\n * @maturityLevel best_practice */\ninterface VaButton \x7b\n text: string;\n disabled?: boolean;\n\x7d")

/-- A declaration file whose interface body contains a nested brace pair
whose closing brace starts a line. -/
def nestedBraceInput : Str :=
  strL ("/** @componentName X\n * @maturityCategory use\n * @maturityLevel deployed */\ninterface VaX \x7b\nobj: \x7b\na: string;\n\x7d;\n\x7d")

/-- A declaration file whose maturity-level tag is followed by two
spaces and the end of the comment. -/
def blankLevelInput : Str :=
  strL ("/** @componentName B\n * @maturityCategory use\n * @maturityLevel  */\ninterface VaB \x7b\nx: string;\n\x7d")

/-- A declaration file with two component blocks carrying the same
component name. -/
def duplicateNameInput : Str :=
  strL ("/** @componentName Dup\n * @maturityCategory use\n * @maturityLevel best_practice */\ninterface VaDupA \x7b\na: string;\n\x7d\n/** @componentName Dup\n * @maturityCategory use\n * @maturityLevel deployed */\ninterface VaDupB \x7b\nb: string;\n\x7d")

/-- The component of the stored-name lookup scenario, with the tag name
the parsing pipeline would derive for it. -/
def fileInputMultipleData : ComponentData :=
  { name := strL ("File input multiple"),
    tagName := strL ("va-file input multiple"),
    status := ComponentStatus.recommended,
    maturityLevel := strL ("best_practice"),
    recommendation := strL ("Recommended for production use - follows VA design system best practices"),
    properties := [] }

/-- The quoted-name property line of the round-trip scenario, with or
without the optional marker. -/
def ariaLabelLine (opt : Bool) : Str :=
  strL ("\"aria-label\"") ++ (if opt then strL ("?") else []) ++ strL (": string;")

/-- A required visible-text property. -/
def textProp : ComponentProperty :=
  { name := strL ("text"), type := strL ("string"), optional := false,
    description := none }

/-- An optional visible-text property. -/
def headlineProp : ComponentProperty :=
  { name := strL ("headline"), type := strL ("string"), optional := true,
    description := none }

/-- A second optional visible-text property. -/
def contentProp : ComponentProperty :=
  { name := strL ("content"), type := strL ("string"), optional := true,
    description := none }

/-- The analysis of a component whose first visible-text property is
required and which has two further optional visible-text properties. -/
def visibleFirstAnalysis : ComponentSemanticAnalysis :=
  analyzeComponentSemantics [textProp, headlineProp, contentProp]

/-- A property whose union type has no meaningful options and whose
type mentions no other type keyword. -/
def undefinedUnionProp : ComponentProperty :=
  { name := strL ("x"), type := strL ("undefined | undefined"), optional := true,
    description := none }

/-!
## Claim-side comparison definitions

These definitions follow the words of the specification (not the
source); each is compared against the embedded source behaviour by a
refutation or refinement theorem below.
-/

/-- Modelled from the spec: the interface body "from the opening brace
to the matching top-level closing brace", by depth counting over the
text following the opening brace. -/
def matchingBraceBody : Nat → Str → Option Str
  | _, [] => none
  | depth, c :: cs =>
    if c = '\x7d' then
      if depth = 0 then some []
      else (matchingBraceBody (depth - 1) cs).map (fun b => c :: b)
    else if c = '\x7b' then (matchingBraceBody (depth + 1) cs).map (fun b => c :: b)
    else (matchingBraceBody depth cs).map (fun b => c :: b)

/-- The extra attributes the claim describes for VISIBLE_FIRST: the
first two non-required visible-text properties (filter first, then take
two), each with its generated value. -/
def claimVisibleFirstExtras (a : ComponentSemanticAnalysis) : List Str :=
  ((a.visibleTextProps.filter (fun p => !(a.requiredProps.contains p))).take 2).filterMap
    (fun p => (generateContextualValue p a).map (attrKV p.name))

/-- The extra attributes the source actually renders for VISIBLE_FIRST:
the non-required properties among the first two visible-text properties
(take two, then filter), each with a non-null generated value. -/
def amendedVisibleFirstExtras (a : ComponentSemanticAnalysis) : List Str :=
  (a.visibleTextProps.take 2).filterMap
    (fun p =>
      if a.requiredProps.contains p then none
      else (generateContextualValue p a).map (attrKV p.name))

/-- The block extracted from the multi-line scenario input. -/
def buttonBlock : ComponentBlock :=
  { interfaceName := strL ("VaButton"),
    interfaceBody := strL ("\n text: string;\n disabled?: boolean;"),
    componentName := strL ("Button"),
    maturityCategory := strL ("use"),
    maturityLevel := strL ("best_practice"),
    guidanceHref := none,
    translations := [],
    tagName := strL ("va-button") }

/-- The number of entries of a map carrying a given key. -/
def countKey (m : ComponentMap) (n : Str) : Nat :=
  (m.filter (fun e => decide (e.1 = n))).length

/-- A concrete component carrying the three visible-text properties of
`visibleFirstAnalysis`. -/
def visibleFirstComponent : ComponentData :=
  { name := strL ("Vis"), tagName := strL ("va-vis"),
    status := ComponentStatus.unknown, maturityLevel := strL ("unknown"),
    recommendation := [], properties := [textProp, headlineProp, contentProp] }

/-- A concrete component with no properties. -/
def emptyPropsComponent : ComponentData :=
  { name := strL ("Thing"), tagName := strL ("va-thing"),
    status := ComponentStatus.unknown, maturityLevel := strL ("unknown"),
    recommendation := [], properties := [] }

/-!
## Theorems
-/

set_option maxRecDepth 4096

/-- Claim C1, counterexample: on the exact scenario input, whose whole
interface declaration sits on one line, the interface pattern (which
requires a newline before the closing brace) never matches, so
parseComponentMetadata returns the empty map rather than a map with one
ComponentData named Button. -/
theorem claim1_counterexample :
    parseComponentMetadata scenarioOneLineInput = [] := by
  decide

/-- Claim C1 as amended: with each property of the scenario interface on
its own line (and the closing brace on a line of its own),
parseComponentMetadata returns exactly one ComponentData, named Button,
with tag va-button, status RECOMMENDED and two properties, and
generateExamples on it returns a list whose first example is titled
Basic Usage and whose code contains va-button. -/
theorem claim1_amended :
    (parseComponentMetadata scenarioMultiLineInput).map (fun e => e.1)
      = [strL ("Button")] ∧
    (parseComponentMetadata scenarioMultiLineInput).map (fun e =>
        (e.2.name, e.2.tagName, e.2.status, e.2.properties.length))
      = [(strL ("Button"), strL ("va-button"), ComponentStatus.recommended, 2)] ∧
    (parseComponentMetadata scenarioMultiLineInput).map (fun e =>
        (generateExamples e.2).head?.map (fun ex =>
          (ex.title, containsSub ex.code (strL ("va-button")))))
      = [some (strL ("Basic Usage"), true)] := by
  refine ⟨by decide, by decide, by decide⟩

/-- Claim C2, counterexample: on a body with a nested brace pair whose
closing brace starts a line, the captured interfaceBody stops at the
nested closing brace and differs from the text reaching the matching
top-level closing brace. -/
theorem claim2_counterexample :
    (extractComponentBlocks nestedBraceInput).map (fun b => b.interfaceBody)
      = [strL ("\nobj: \x7b\na: string;")] ∧
    matchingBraceBody 0 (strL ("\nobj: \x7b\na: string;\n\x7d;\n\x7d"))
      = some (strL ("\nobj: \x7b\na: string;\n\x7d;\n")) ∧
    strL ("\nobj: \x7b\na: string;") ≠ strL ("\nobj: \x7b\na: string;\n\x7d;\n") := by
  refine ⟨by decide, by decide, by decide⟩

/-- Claim C3, counterexample: a maturity-level tag followed by two
spaces at the end of its comment still matches the tag pattern (the
greedy whitespace class backtracks one character), so a block is emitted
whose maturityLevel trims to the empty string. -/
theorem claim3_counterexample :
    (extractComponentBlocks blankLevelInput).map (fun b =>
        (b.componentName, b.maturityCategory, b.maturityLevel))
      = [(strL ("B"), strL ("use"), [])] := by
  decide

/-- Claim C4, counterexample: for a component whose first visible-text
property is required and which has two further optional visible-text
properties, the source slices the first two visible-text properties
before filtering out required ones, so only one extra attribute is
rendered; the claim predicts attributes for both optional properties. -/
theorem claim4_counterexample :
    visibleFirstAnalysis.contentStrategy = ContentStrategy.visibleFirst ∧
    basicAttrs visibleFirstAnalysis
      = [strL ("text=\"Click me\""), strL ("headline=\"Service Information\"")] ∧
    basicAttrs visibleFirstAnalysis
      ≠ renderBasicRequired visibleFirstAnalysis
          ++ claimVisibleFirstExtras visibleFirstAnalysis := by
  refine ⟨by decide, by decide, by decide⟩

/-- Claim C9, counterexample: a union type all of whose alternatives
strip to the literal text undefined has a type containing the pipe
keyword yet generateContextualValue returns null for it. -/
theorem claim9_counterexample :
    containsSub (lowerStr undefinedUnionProp.type) (strL ("|")) = true ∧
    generateContextualValue undefinedUnionProp
        (analyzeComponentSemantics [undefinedUnionProp]) = none := by
  refine ⟨by decide, by decide⟩

/-- Claim C5: findComponentByName resolves by exact key lookup first
(for every map in which the input is a key, the stored entry is
returned), and the scenario input file-input-multiple resolves to the
component stored under the name File input multiple through the
normalized-name rule. -/
theorem claim5_lookup :
    (∀ (m : ComponentMap) (k : Str) (v : ComponentData),
        mapGet m k = some v → findComponentByName k m = some v) ∧
    findComponentByName (strL ("file-input-multiple"))
        [(strL ("File input multiple"), fileInputMultipleData)]
      = some fileInputMultipleData := by
  constructor
  · intro m k v h
    unfold findComponentByName
    rw [h]
  · decide

/-- Witness for claim C5: the exact-lookup part applied to a concrete
one-entry map. -/
theorem claim5_lookup_witness :
    findComponentByName (strL ("File input multiple"))
        [(strL ("File input multiple"), fileInputMultipleData)]
      = some fileInputMultipleData :=
  claim5_lookup.1 [(strL ("File input multiple"), fileInputMultipleData)]
    (strL ("File input multiple")) fileInputMultipleData (by decide)

/-- Claim C6: a property line with the quoted name aria-label parses to
a Property named aria-label with the quotes stripped, whose optional
flag is true exactly when the declaration used the optional marker, and
that name is classified as accessibility and not as visible content. -/
theorem claim6_round_trip :
    ∀ opt : Bool,
      parsePropertyDefinition (ariaLabelLine opt)
        = some { name := strL ("aria-label"), type := strL ("string"),
                 optional := opt, description := none } ∧
      isAccessibilityProp (strL ("aria-label")) (strL ("string")) = true ∧
      isVisibleContentProp (strL ("aria-label")) (strL ("string")) = false := by
  intro opt
  cases opt <;> exact ⟨by decide, by decide, by decide⟩

/-- Claim C7: for every analysis value, detectCompositeComponent on
va-radio-group returns the form-choice-group CompositeInfo with child
element va-radio-option and three children, and the first child emitted
by generateCompositeChildren carries the label attribute value
Sojourner Truth. -/
theorem claim7_radio_group :
    ∀ a : ComponentSemanticAnalysis,
      detectCompositeComponent (strL ("va-radio-group")) a
        = some { type := strL ("form-choice-group"),
                 childElement := strL ("va-radio-option"),
                 childCount := 3,
                 childProps := [{ name := strL ("label"), required := true },
                                { name := strL ("name"), required := true },
                                { name := strL ("value"), required := true }] } ∧
      generateCompositeChildren
          { type := strL ("form-choice-group"),
            childElement := strL ("va-radio-option"),
            childCount := 3,
            childProps := [{ name := strL ("label"), required := true },
                           { name := strL ("name"), required := true },
                           { name := strL ("value"), required := true }] }
        = strL ("\n  <va-radio-option label=\"Sojourner Truth\" name=\"group\" value=\"1\"></va-radio-option>\n  <va-radio-option label=\"Frederick Douglass\" name=\"group\" value=\"2\"></va-radio-option>\n  <va-radio-option label=\"Booker T. Washington\" name=\"group\" value=\"3\"></va-radio-option>\n") := by
  intro a
  exact ⟨rfl, by decide⟩

/-- Claim C8: a component with an empty property list yields exactly one
example, titled Basic Usage, whose attribute string is empty, so its
code is the component tag immediately followed by the closing bracket
(around the composite-or-slot inner content). -/
theorem claim8_zero_props :
    ∀ comp : ComponentData, comp.properties = [] →
      generateExamples comp
        = [generateSemanticBasicExample comp.tagName (analyzeComponentSemantics [])] ∧
      basicAttrString (analyzeComponentSemantics []) = [] ∧
      (generateSemanticBasicExample comp.tagName (analyzeComponentSemantics [])).title
        = strL ("Basic Usage") ∧
      (generateSemanticBasicExample comp.tagName (analyzeComponentSemantics [])).code
        = strL ("<") ++ comp.tagName ++ strL (">")
          ++ basicInnerContent comp.tagName (analyzeComponentSemantics [])
          ++ strL ("</") ++ comp.tagName ++ strL (">") := by
  intro comp h
  have hA : analyzeComponentSemantics [] = initialAnalysis := by decide
  have hAttrs : basicAttrString initialAnalysis = [] := by decide
  have hs : initialAnalysis.hasStates = false := rfl
  have hacc : initialAnalysis.hasAccessibilityEnhancements = false := rfl
  have hform : initialAnalysis.isFormRelated = false := rfl
  refine ⟨?_, by decide, rfl, ?_⟩
  · unfold generateExamples
    rw [h, hA]
    simp [hs, hacc, hform]
  · rw [hA]
    show strL ("<") ++ comp.tagName ++ basicAttrString initialAnalysis ++ strL (">")
          ++ basicInnerContent comp.tagName initialAnalysis
          ++ strL ("</") ++ comp.tagName ++ strL (">") = _
    rw [hAttrs]
    simp

/-- Witness for claim C8: the zero-property theorem applied to a
concrete component. -/
theorem claim8_zero_props_witness :
    generateExamples emptyPropsComponent
      = [generateSemanticBasicExample emptyPropsComponent.tagName
           (analyzeComponentSemantics [])] ∧
    basicAttrString (analyzeComponentSemantics []) = [] ∧
    (generateSemanticBasicExample emptyPropsComponent.tagName
        (analyzeComponentSemantics [])).title = strL ("Basic Usage") ∧
    (generateSemanticBasicExample emptyPropsComponent.tagName
        (analyzeComponentSemantics [])).code
      = strL ("<") ++ emptyPropsComponent.tagName ++ strL (">")
        ++ basicInnerContent emptyPropsComponent.tagName (analyzeComponentSemantics [])
        ++ strL ("</") ++ emptyPropsComponent.tagName ++ strL (">") :=
  claim8_zero_props emptyPropsComponent rfl

/-- The VISIBLE_FIRST loop of generateSemanticBasicExample appends, to
any starting accumulator, exactly the attribute of each non-required
property with a non-null generated value, in list order. -/
theorem foldl_visibleFirstStep (a : ComponentSemanticAnalysis) :
    ∀ (l : List ComponentProperty) (acc : List Str),
      l.foldl (visibleFirstStep a) acc
        = acc ++ l.filterMap (fun p =>
            if a.requiredProps.contains p then none
            else (generateContextualValue p a).map (attrKV p.name)) := by
  intro l
  induction l with
  | nil => intro acc; simp
  | cons p l ih =>
    intro acc
    by_cases hc : p ∈ a.requiredProps
    · simp [List.foldl_cons, List.filterMap_cons, visibleFirstStep, hc, ih]
    · cases hg : generateContextualValue p a with
      | none => simp [List.foldl_cons, List.filterMap_cons, visibleFirstStep, hc, hg, ih]
      | some v => simp [List.foldl_cons, List.filterMap_cons, visibleFirstStep, hc, hg, ih]

/-- Claim C4 as amended: for every component whose content strategy is
VISIBLE_FIRST, the Basic Usage example (the first example generated)
carries, after the attributes rendered from required properties, the
attributes of the non-required properties among the first two
visible-text properties (take two, then filter), each with its
generated value, in list order. -/
theorem claim4_amended :
    ∀ comp : ComponentData,
      (analyzeComponentSemantics comp.properties).contentStrategy
        = ContentStrategy.visibleFirst →
      basicAttrs (analyzeComponentSemantics comp.properties)
        = renderBasicRequired (analyzeComponentSemantics comp.properties)
          ++ amendedVisibleFirstExtras (analyzeComponentSemantics comp.properties) ∧
      (generateExamples comp).head?
        = some (generateSemanticBasicExample comp.tagName
                  (analyzeComponentSemantics comp.properties)) := by
  intro comp h
  constructor
  · unfold basicAttrs amendedVisibleFirstExtras
    rw [h]
    exact foldl_visibleFirstStep _ _ _
  · unfold generateExamples
    simp

/-- Witness for claim C4: the amended statement applied to a concrete
component with VISIBLE_FIRST strategy. -/
theorem claim4_amended_witness :
    basicAttrs (analyzeComponentSemantics visibleFirstComponent.properties)
      = renderBasicRequired (analyzeComponentSemantics visibleFirstComponent.properties)
        ++ amendedVisibleFirstExtras
             (analyzeComponentSemantics visibleFirstComponent.properties) ∧
    (generateExamples visibleFirstComponent).head?
      = some (generateSemanticBasicExample visibleFirstComponent.tagName
                (analyzeComponentSemantics visibleFirstComponent.properties)) :=
  claim4_amended visibleFirstComponent (by decide)

/-- Claim C9 as amended: generateContextualValue returns null exactly
when the lowercased type contains none of array, [], boolean, number,
object and string, any pipe-delimited split of it yields no meaningful
options (every alternative trims and unquotes to the empty string or to
the text undefined), and no purpose-table entry matches.  In
particular, a type containing a pipe can still produce null, while a
type containing any of the other six keywords never does. -/
theorem claim9_amended :
    ∀ (p : ComponentProperty) (a : ComponentSemanticAnalysis),
      generateContextualValue p a = none ↔
        (containsSub (lowerStr p.type) (strL ("array")) = false ∧
         containsSub (lowerStr p.type) (strL ("[]")) = false ∧
         containsSub (lowerStr p.type) (strL ("boolean")) = false ∧
         containsSub (lowerStr p.type) (strL ("number")) = false ∧
         containsSub (lowerStr p.type) (strL ("object")) = false ∧
         containsSub (lowerStr p.type) (strL ("string")) = false) ∧
        (containsSub (lowerStr p.type) (strL ("|")) = true →
           meaningfulOptions (lowerStr p.type) = []) ∧
        purposeSwitchValue a.inferredPurpose (lowerStr p.name) = none := by
  intro p a
  unfold generateContextualValue typeKeywordFallback
  cases h1 : containsSub (lowerStr p.type) (strL ("array")) with
  | true => simp [h1]
  | false =>
    cases h2 : containsSub (lowerStr p.type) (strL ("[]")) with
    | true => simp [h1, h2]
    | false =>
      simp only [h1, h2, Bool.or_self, Bool.false_eq_true, if_false]
      cases h3 : containsSub (lowerStr p.type) (strL ("|")) with
      | true =>
        simp only [h3, if_true]
        cases hm : (meaningfulOptions (lowerStr p.type)).head? with
        | some o =>
          have hne : meaningfulOptions (lowerStr p.type) ≠ [] := by
            intro he
            rw [he] at hm
            exact Option.noConfusion hm
          simp [hm, hne]
        | none =>
          have hnil : meaningfulOptions (lowerStr p.type) = [] :=
            List.head?_eq_none_iff.mp hm
          cases h4 : purposeSwitchValue a.inferredPurpose (lowerStr p.name) with
          | some v => simp [hm, h4]
          | none =>
            cases h5 : containsSub (lowerStr p.type) (strL ("boolean")) with
            | true => simp [hm, h4, h5]
            | false =>
              cases h6 : containsSub (lowerStr p.type) (strL ("number")) with
              | true => simp [hm, h4, h5, h6]
              | false =>
                cases h7 : containsSub (lowerStr p.type) (strL ("object")) with
                | true => simp [hm, h4, h5, h6, h7]
                | false =>
                  cases h8 : containsSub (lowerStr p.type) (strL ("string")) with
                  | true => simp [hm, h4, h5, h6, h7, h8]
                  | false => simp [hm, h4, h5, h6, h7, h8, hnil]
      | false =>
        simp only [h3, Bool.false_eq_true, if_false]
        cases h4 : purposeSwitchValue a.inferredPurpose (lowerStr p.name) with
        | some v => simp [h4]
        | none =>
          cases h5 : containsSub (lowerStr p.type) (strL ("boolean")) with
          | true => simp [h4, h5]
          | false =>
            cases h6 : containsSub (lowerStr p.type) (strL ("number")) with
            | true => simp [h4, h5, h6]
            | false =>
              cases h7 : containsSub (lowerStr p.type) (strL ("object")) with
              | true => simp [h4, h5, h6, h7]
              | false =>
                cases h8 : containsSub (lowerStr p.type) (strL ("string")) with
                | true => simp [h4, h5, h6, h7, h8]
                | false => simp [h4, h5, h6, h7, h8, h3]

/-- Lookup distributes over a cons cell of the association list. -/
theorem mapGet_cons (e : Str × ComponentData) (m : ComponentMap) (n : Str) :
    mapGet (e :: m) n = if e.1 = n then some e.2 else mapGet m n := by
  by_cases h : e.1 = n <;> simp [mapGet, List.find?_cons, h]

/-- Setting a key and reading it back yields the stored value. -/
theorem mapGet_mapSet_same :
    ∀ (m : ComponentMap) (k : Str) (v : ComponentData),
      mapGet (mapSet m k v) k = some v := by
  intro m k v
  induction m with
  | nil => simp [mapSet, mapGet]
  | cons e m ih =>
    by_cases he : e.1 = k
    · simp [mapSet, he, mapGet_cons]
    · simp [mapSet, he, mapGet_cons, ih]

/-- Setting a key leaves every other key unchanged. -/
theorem mapGet_mapSet_other :
    ∀ (m : ComponentMap) (k : Str) (v : ComponentData) (n : Str), ¬(n = k) →
      mapGet (mapSet m k v) n = mapGet m n := by
  intro m k v n hnk
  have hkn : ¬(k = n) := fun h => hnk h.symm
  induction m with
  | nil => simp [mapSet, mapGet_cons, hkn, mapGet]
  | cons e m ih =>
    by_cases he : e.1 = k
    · have hen : ¬(e.1 = n) := fun h => hnk (h ▸ he ▸ rfl)
      simp [mapSet, he, mapGet_cons, hen, hkn]
    · by_cases hen : e.1 = n
      · simp [mapSet, he, mapGet_cons, hen, hnk]
      · simp [mapSet, he, mapGet_cons, hen, ih]

/-- The fold of parseComponentMetadata realizes last-write-wins lookup:
reading key n after folding a block list returns the component built
from the last block named n, or falls through to the starting map. -/
theorem mapGet_foldl_parseStep :
    ∀ (bs : List ComponentBlock) (m : ComponentMap) (n : Str),
      mapGet (bs.foldl parseStep m) n
        = match (bs.filter (fun b => decide (b.componentName = n))).getLast? with
          | some b => some (buildComponent b)
          | none => mapGet m n := by
  intro bs
  induction bs with
  | nil => intro m n; simp
  | cons b bs ih =>
    intro m n
    rw [List.foldl_cons, ih]
    by_cases hp : b.componentName = n
    · rw [List.filter_cons_of_pos (by simpa using hp)]
      cases hl : (bs.filter (fun b => decide (b.componentName = n))).getLast? with
      | some b2 =>
        have hne : bs.filter (fun b => decide (b.componentName = n)) ≠ [] := by
          intro he; rw [he] at hl; exact Option.noConfusion hl
        obtain ⟨c, l, hcl⟩ := List.exists_cons_of_ne_nil hne
        rw [hcl] at hl ⊢
        rw [List.getLast?_cons_cons, hl]
      | none =>
        have hnil : bs.filter (fun b => decide (b.componentName = n)) = [] :=
          List.getLast?_eq_none_iff.mp hl
        rw [hnil]
        show mapGet (parseStep m b) n = _
        unfold parseStep
        rw [show (buildComponent b).name = b.componentName from rfl, hp,
            mapGet_mapSet_same]
        rfl
    · rw [List.filter_cons_of_neg (by simpa using hp)]
      cases hl : (bs.filter (fun b => decide (b.componentName = n))).getLast? with
      | some b2 => rfl
      | none =>
        show mapGet (parseStep m b) n = mapGet m n
        unfold parseStep
        rw [show (buildComponent b).name = b.componentName from rfl]
        exact mapGet_mapSet_other m b.componentName (buildComponent b) n
          (fun h => hp h.symm)

/-- Key multiplicity distributes over a cons cell. -/
theorem countKey_cons (e : Str × ComponentData) (m : ComponentMap) (n : Str) :
    countKey (e :: m) n = (if e.1 = n then 1 else 0) + countKey m n := by
  by_cases h : e.1 = n <;> simp [countKey, List.filter_cons, h, Nat.add_comm]

/-- Setting key k does not change the multiplicity of other keys. -/
theorem countKey_mapSet_other :
    ∀ (m : ComponentMap) (k : Str) (v : ComponentData) (n : Str), ¬(n = k) →
      countKey (mapSet m k v) n = countKey m n := by
  intro m k v n hnk
  have hkn : ¬(k = n) := fun h => hnk h.symm
  induction m with
  | nil => simp [mapSet, countKey_cons, hkn, countKey]
  | cons e m ih =>
    by_cases he : e.1 = k
    · simp [mapSet, he, countKey_cons, hkn]
    · simp [mapSet, he, countKey_cons, ih]

/-- A map with no duplicate keys keeps that property under set. -/
theorem countKey_mapSet_le :
    ∀ (m : ComponentMap) (k : Str) (v : ComponentData),
      (∀ n, countKey m n ≤ 1) → ∀ n, countKey (mapSet m k v) n ≤ 1 := by
  intro m k v
  induction m with
  | nil =>
    intro _ n
    by_cases h : k = n <;> simp [mapSet, countKey_cons, countKey, h]
  | cons e m ih =>
    intro hInv n
    have hInvTail : ∀ n', countKey m n' ≤ 1 := by
      intro n'
      have := hInv n'
      rw [countKey_cons] at this
      omega
    by_cases he : e.1 = k
    · have := hInv n
      rw [countKey_cons] at this
      rw [mapSet, if_pos he, countKey_cons]
      simpa using this
    · rw [mapSet, if_neg he, countKey_cons]
      by_cases hen : e.1 = n
      · have h0 : countKey m n = 0 := by
          have := hInv n
          rw [countKey_cons, if_pos hen] at this
          omega
        have hnk : ¬(n = k) := fun h => he (hen.trans h)
        rw [countKey_mapSet_other m k v n hnk, h0]
        simp [hen]
      · have := ih hInvTail n
        simp [hen]
        omega

/-- No-duplicate-keys is preserved along the parse fold. -/
theorem countKey_foldl_parseStep_le :
    ∀ (bs : List ComponentBlock) (m : ComponentMap),
      (∀ n, countKey m n ≤ 1) → ∀ n, countKey (bs.foldl parseStep m) n ≤ 1 := by
  intro bs
  induction bs with
  | nil => intro m h n; exact h n
  | cons b bs ih =>
    intro m h n
    rw [List.foldl_cons]
    exact ih (parseStep m b) (countKey_mapSet_le m _ _ h) n

/-- Setting a key equal to the stored name keeps every entry keyed by
the name of its value. -/
theorem allKeys_mapSet :
    ∀ (m : ComponentMap) (k : Str) (v : ComponentData), k = v.name →
      (∀ e ∈ m, e.1 = e.2.name) → ∀ e ∈ mapSet m k v, e.1 = e.2.name := by
  intro m k v hkv
  induction m with
  | nil =>
    intro _ e he
    rw [mapSet] at he
    rcases List.mem_singleton.mp he with rfl
    exact hkv
  | cons x m ih =>
    intro hAll e he
    by_cases hx : x.1 = k
    · rw [mapSet, if_pos hx] at he
      rcases List.mem_cons.mp he with rfl | hm
      · exact hx.trans hkv
      · exact hAll e (List.mem_cons_of_mem x hm)
    · rw [mapSet, if_neg hx] at he
      rcases List.mem_cons.mp he with rfl | hm
      · exact hAll _ (List.mem_cons_self _ _)
      · exact ih (fun e' he' => hAll e' (List.mem_cons_of_mem x he')) e hm

/-- Every entry of the parse fold is keyed by its component name. -/
theorem allKeys_foldl_parseStep :
    ∀ (bs : List ComponentBlock) (m : ComponentMap),
      (∀ e ∈ m, e.1 = e.2.name) →
      ∀ e ∈ bs.foldl parseStep m, e.1 = e.2.name := by
  intro bs
  induction bs with
  | nil => intro m h; exact h
  | cons b bs ih =>
    intro m h
    rw [List.foldl_cons]
    exact ih (parseStep m b) (allKeys_mapSet m _ _ rfl h)

/-- A successful lookup witnesses at least one entry under the key. -/
theorem mapGet_some_count :
    ∀ (m : ComponentMap) (n : Str) (v : ComponentData),
      mapGet m n = some v → 1 ≤ countKey m n := by
  intro m n v
  induction m with
  | nil => intro h; exact absurd h (by simp [mapGet])
  | cons e m ih =>
    intro h
    by_cases he : e.1 = n
    · rw [countKey_cons, if_pos he]
      omega
    · rw [mapGet_cons, if_neg he] at h
      rw [countKey_cons, if_neg he]
      have := ih h
      omega

/-- Folding with the per-block guard equals folding the good blocks. -/
theorem foldl_guard_filter :
    ∀ (bs : List ComponentBlock) (m : ComponentMap),
      bs.foldl (fun components block =>
          if goodBlock block then parseStep components block else components) m
        = (bs.filter goodBlock).foldl parseStep m := by
  intro bs
  induction bs with
  | nil => intro m; rfl
  | cons b bs ih =>
    intro m
    by_cases hg : goodBlock b
    · rw [List.foldl_cons, if_pos hg, List.filter_cons_of_pos hg, List.foldl_cons, ih]
    · rw [List.foldl_cons, if_neg hg, List.filter_cons_of_neg (by simpa using hg), ih]

/-- Claim C10: every key of the returned map equals the name of the
component stored under it; each name keys at most one entry (exactly
one as soon as some retained block carries it); and the entry stored
under a name is built from the last retained block carrying that name
in file order (last-write-wins). -/
theorem claim10_last_write_wins :
    ∀ (content : Str) (n : Str),
      (∀ e ∈ parseComponentMetadata content, e.1 = e.2.name) ∧
      mapGet (parseComponentMetadata content) n
        = ((((extractComponentBlocks content).filter goodBlock).filter
              (fun b => decide (b.componentName = n))).getLast?).map buildComponent ∧
      countKey (parseComponentMetadata content) n ≤ 1 ∧
      ((((extractComponentBlocks content).filter goodBlock).any
            (fun b => decide (b.componentName = n))) = true →
        countKey (parseComponentMetadata content) n = 1) := by
  intro content n
  have hparse : parseComponentMetadata content
      = ((extractComponentBlocks content).filter goodBlock).foldl parseStep [] := by
    unfold parseComponentMetadata
    exact foldl_guard_filter _ _
  have hget : mapGet (parseComponentMetadata content) n
      = ((((extractComponentBlocks content).filter goodBlock).filter
            (fun b => decide (b.componentName = n))).getLast?).map buildComponent := by
    rw [hparse, mapGet_foldl_parseStep]
    cases hl : (((extractComponentBlocks content).filter goodBlock).filter
        (fun b => decide (b.componentName = n))).getLast? with
    | some b => rfl
    | none => rfl
  refine ⟨?_, hget, ?_, ?_⟩
  · rw [hparse]
    exact allKeys_foldl_parseStep _ [] (by intro e he; cases he)
  · rw [hparse]
    exact countKey_foldl_parseStep_le _ []
      (by intro n'; simp [countKey]) n
  · intro hany
    obtain ⟨b, hb, hbn⟩ := List.any_eq_true.mp hany
    have hmem : b ∈ ((extractComponentBlocks content).filter goodBlock).filter
        (fun b => decide (b.componentName = n)) := List.mem_filter.mpr ⟨hb, hbn⟩
    have hne : (((extractComponentBlocks content).filter goodBlock).filter
        (fun b => decide (b.componentName = n))) ≠ [] :=
      List.ne_nil_of_mem hmem
    cases hl : (((extractComponentBlocks content).filter goodBlock).filter
        (fun b => decide (b.componentName = n))).getLast? with
    | none => exact absurd (List.getLast?_eq_none_iff.mp hl) hne
    | some b2 =>
      have hsome : mapGet (parseComponentMetadata content) n
          = some (buildComponent b2) := by
        rw [hget, hl]; rfl
      have h1 := mapGet_some_count _ _ _ hsome
      have h2 : countKey (parseComponentMetadata content) n ≤ 1 := by
        rw [hparse]
        exact countKey_foldl_parseStep_le _ [] (by intro n'; simp [countKey]) n
      omega

/-- Witness for claim C10: the duplicate-name input carries two blocks
named Dup, and the parsed map holds exactly one entry under Dup. -/
theorem claim10_last_write_wins_witness :
    (((extractComponentBlocks duplicateNameInput).filter goodBlock).any
        (fun b => decide (b.componentName = strL ("Dup")))) = true ∧
    countKey (parseComponentMetadata duplicateNameInput) (strL ("Dup")) = 1 :=
  ⟨by decide,
   (claim10_last_write_wins duplicateNameInput (strL ("Dup"))).2.2.2 (by decide)⟩

/-- A line terminator is whitespace. -/
theorem isSpaceJS_of_isLineTerm : ∀ c : Char, isLineTerm c = true → isSpaceJS c = true := by
  intro c h
  rcases Bool.or_eq_true _ _ |>.mp h with h1 | h1
  · rw [decide_eq_true_eq] at h1
    subst h1; decide
  · rw [decide_eq_true_eq] at h1
    subst h1; decide

/-- The head surviving a dropWhile fails the predicate. -/
theorem dropWhile_head_false (p : Char → Bool) :
    ∀ (l : Str) (c : Char) (t : Str), l.dropWhile p = c :: t → p c = false := by
  intro l
  induction l with
  | nil => intro c t h; exact absurd h (by simp)
  | cons x l ih =>
    intro c t h
    by_cases hx : p x
    · rw [List.dropWhile_cons_of_pos hx] at h
      exact ih c t h
    · rw [List.dropWhile_cons_of_neg hx] at h
      rcases List.cons.injEq _ _ _ _ ▸ h with ⟨rfl, _⟩
      exact Bool.eq_false_iff.mpr hx

/-- A successful `\s+(.+)` match captures at least one character. -/
theorem matchWsDotPlus_cap_ne_nil :
    ∀ (r cap rest : Str), matchWsDotPlus r = some (cap, rest) → cap ≠ [] := by
  intro r cap rest h
  unfold matchWsDotPlus at h
  by_cases hws : (r.takeWhile isSpaceJS).isEmpty
  · rw [if_pos hws] at h
    exact Option.noConfusion h
  · rw [if_neg hws] at h
    by_cases hrest : (r.dropWhile isSpaceJS).isEmpty
    · rw [if_neg (by simpa using hrest)] at h
      simp only [hrest] at h
      cases hdw : ((r.takeWhile isSpaceJS).drop 1).reverse.dropWhile isLineTerm with
      | nil => rw [hdw] at h; exact Option.noConfusion h
      | cons c t =>
        rw [hdw] at h
        rcases Prod.mk.injEq _ _ _ _ ▸ (Option.some.inj h) with ⟨hcap, _⟩
        rw [← hcap]
        exact List.cons_ne_nil c []
    · rw [if_pos (by simpa using hrest)] at h
      rcases Prod.mk.injEq _ _ _ _ ▸ (Option.some.inj h) with ⟨hcap, _⟩
      have hrn : r.dropWhile isSpaceJS ≠ [] := fun he => hrest (by rw [he]; rfl)
      obtain ⟨c, t, hct⟩ := List.exists_cons_of_ne_nil hrn
      have hc : isSpaceJS c = false := dropWhile_head_false isSpaceJS r c t hct
      have hlt : isLineTerm c = false := by
        cases hx : isLineTerm c with
        | false => rfl
        | true => rw [isSpaceJS_of_isLineTerm c hx] at hc; exact Bool.noConfusion hc
      rw [← hcap, hct, List.takeWhile_cons]
      simp [hlt]

/-- A successful tag search captures at least one character. -/
theorem findTagAux_some_ne_nil (tag : Str) :
    ∀ (fuel : Nat) (s cap : Str), findTagAux tag fuel s = some cap → cap ≠ [] := by
  intro fuel
  induction fuel with
  | zero => intro s cap h; exact absurd h (by simp [findTagAux])
  | succ f ih =>
    intro s cap h
    cases s with
    | nil => exact absurd h (by simp [findTagAux])
    | cons c cs =>
      rw [findTagAux] at h
      by_cases hp : isPrefixL tag (c :: cs)
      · rw [if_pos hp] at h
        cases hm : matchWsDotPlus ((c :: cs).drop tag.length) with
        | none => rw [hm] at h; exact ih cs cap h
        | some pr =>
          rw [hm] at h
          cases pr with
          | mk cap2 rest2 =>
            have := Option.some.inj h
            subst this
            exact matchWsDotPlus_cap_ne_nil _ _ _ hm
      · rw [if_neg hp] at h
        exact ih cs cap h

/-- A successful line-tag match captures at least one character. -/
theorem findTag_some_ne_nil (tag s cap : Str) :
    findTag tag s = some cap → cap ≠ [] :=
  findTagAux_some_ne_nil tag s.length s cap

/-- An element failing the predicate survives dropWhile. -/
theorem mem_dropWhile_of_not (p : Char → Bool) :
    ∀ (l : Str) (x : Char), x ∈ l → p x = false → x ∈ l.dropWhile p := by
  intro l
  induction l with
  | nil => intro x hx _; cases hx
  | cons c cs ih =>
    intro x hx hpx
    by_cases hc : p c
    · rw [List.dropWhile_cons_of_pos hc]
      rcases List.mem_cons.mp hx with rfl | hm
      · rw [hpx] at hc; exact Bool.noConfusion hc
      · exact ih x hm hpx
    · rw [List.dropWhile_cons_of_neg hc]
      exact hx

/-- A string holding any non-whitespace character trims to a non-empty
string. -/
theorem trimJS_ne_nil :
    ∀ (c : Str), (c.any (fun x => !isSpaceJS x)) = true → trimJS c ≠ [] := by
  intro c hany
  obtain ⟨x, hx, hxp⟩ := List.any_eq_true.mp hany
  have hxf : isSpaceJS x = false := by
    cases h : isSpaceJS x with
    | false => rfl
    | true => rw [h] at hxp; exact Bool.noConfusion hxp
  have h1 : x ∈ c.dropWhile isSpaceJS := mem_dropWhile_of_not isSpaceJS c x hx hxf
  have h2 : x ∈ (c.dropWhile isSpaceJS).reverse := List.mem_reverse.mpr h1
  have h3 : x ∈ ((c.dropWhile isSpaceJS).reverse.dropWhile isSpaceJS) :=
    mem_dropWhile_of_not isSpaceJS _ x h2 hxf
  unfold trimJS
  intro he
  rw [List.reverse_eq_nil_iff] at he
  rw [he] at h3
  cases h3

/-- Claim C3 as amended: every emitted ComponentBlock has its
componentName, maturityCategory and maturityLevel equal to the trimmed
capture of the corresponding tag; each capture holds at least one
character, and each field is non-empty whenever its capture holds a
non-whitespace character — but a capture consisting of whitespace only
(for example a maturity-level tag followed by two spaces at the end of
its comment) trims to an empty field. -/
theorem claim3_amended :
    ∀ (content : Str) (b : ComponentBlock), b ∈ extractComponentBlocks content →
      ∃ c1 c2 c3 : Str,
        c1 ≠ [] ∧ c2 ≠ [] ∧ c3 ≠ [] ∧
        b.componentName = trimJS c1 ∧
        b.maturityCategory = trimJS c2 ∧
        b.maturityLevel = trimJS c3 ∧
        ((c1.any (fun x => !isSpaceJS x)) = true → b.componentName ≠ []) ∧
        ((c2.any (fun x => !isSpaceJS x)) = true → b.maturityCategory ≠ []) ∧
        ((c3.any (fun x => !isSpaceJS x)) = true → b.maturityLevel ≠ []) := by
  intro content b hmem
  unfold extractComponentBlocks at hmem
  obtain ⟨m, _, hbm⟩ := List.mem_filterMap.mp hmem
  unfold blockOfMatch at hbm
  simp only [] at hbm
  split at hbm
  · exact Option.noConfusion hbm
  · rename_i commentText hc
    split at hbm
    · exact Option.noConfusion hbm
    · rename_i cn hcn
      split at hbm
      · rename_i mc ml hmc hml
        have hb := Option.some.inj hbm
        refine ⟨cn, mc, ml,
          findTag_some_ne_nil _ _ _ hcn,
          findTag_some_ne_nil _ _ _ hmc,
          findTag_some_ne_nil _ _ _ hml,
          ?_, ?_, ?_, ?_, ?_, ?_⟩
        · rw [← hb]
        · rw [← hb]
        · rw [← hb]
        · intro hany
          rw [← hb]
          exact trimJS_ne_nil cn hany
        · intro hany
          rw [← hb]
          exact trimJS_ne_nil mc hany
        · intro hany
          rw [← hb]
          exact trimJS_ne_nil ml hany
      · exact Option.noConfusion hbm

/-- Witness for claim C3: the amended statement applied to the block
extracted from the multi-line scenario input. -/
theorem claim3_amended_witness :
    ∃ c1 c2 c3 : Str,
      c1 ≠ [] ∧ c2 ≠ [] ∧ c3 ≠ [] ∧
      buttonBlock.componentName = trimJS c1 ∧
      buttonBlock.maturityCategory = trimJS c2 ∧
      buttonBlock.maturityLevel = trimJS c3 ∧
      ((c1.any (fun x => !isSpaceJS x)) = true → buttonBlock.componentName ≠ []) ∧
      ((c2.any (fun x => !isSpaceJS x)) = true → buttonBlock.maturityCategory ≠ []) ∧
      ((c3.any (fun x => !isSpaceJS x)) = true → buttonBlock.maturityLevel ≠ []) :=
  claim3_amended scenarioMultiLineInput buttonBlock (by decide)

/-- dropWhile skips a fully-satisfying prefix. -/
theorem dropWhile_append_all (p : Char → Bool) :
    ∀ (l1 l2 : Str), l1.all p = true → (l1 ++ l2).dropWhile p = l2.dropWhile p := by
  intro l1
  induction l1 with
  | nil => intro l2 _; rfl
  | cons c cs ih =>
    intro l2 hall
    rcases List.all_cons .. ▸ hall with h
    have hc : p c = true := (Bool.and_eq_true _ _ ▸ h).1
    have hcs : cs.all p = true := (Bool.and_eq_true _ _ ▸ h).2
    rw [List.cons_append, List.dropWhile_cons_of_pos hc]
    exact ih l2 hcs

/-- dropWhile stops inside a prefix holding a failing character. -/
theorem dropWhile_append_ne (p : Char → Bool) :
    ∀ (l1 l2 : Str), l1.dropWhile p ≠ [] →
      (l1 ++ l2).dropWhile p = l1.dropWhile p ++ l2 := by
  intro l1
  induction l1 with
  | nil => intro l2 h; exact absurd rfl h
  | cons c cs ih =>
    intro l2 h
    by_cases hc : p c
    · rw [List.dropWhile_cons_of_pos hc] at h ⊢
      rw [List.cons_append, List.dropWhile_cons_of_pos hc]
      exact ih l2 h
    · rw [List.dropWhile_cons_of_neg hc] at h ⊢
      rw [List.cons_append, List.dropWhile_cons_of_neg hc]

/-- Every character kept by takeWhile satisfies the predicate. -/
theorem takeWhile_all (p : Char → Bool) (l : Str) :
    (l.takeWhile p).all p = true :=
  List.all_eq_true.mpr (fun _ hx => List.mem_takeWhile_imp hx)

/-- A successful lazy-body match decomposes its input as the body, the
newline, the whitespace run and the closing brace. -/
theorem findLazyEnd_decomp :
    ∀ (s b w r : Str), findLazyEnd s = some (b, w, r) →
      s = b ++ '\n' :: (w ++ '\x7d' :: r) ∧ w.all isSpaceJS = true := by
  intro s
  induction s with
  | nil => intro b w r h; exact absurd h (by simp [findLazyEnd])
  | cons c cs ih =>
    intro b w r h
    rw [findLazyEnd] at h
    by_cases hcond : (c = '\n' && ((cs.dropWhile isSpaceJS).head? = some '\x7d' : Bool)) = true
    · rw [if_pos hcond] at h
      rcases Prod.mk.injEq .. ▸ Option.some.inj h with ⟨hb, hwr⟩
      rcases Prod.mk.injEq .. ▸ hwr with ⟨hw, hr⟩
      have hc : c = '\n' := by
        have := (Bool.and_eq_true _ _ ▸ hcond).1
        exact decide_eq_true_eq.mp this
      have hhd : (cs.dropWhile isSpaceJS).head? = some '\x7d' := by
        have := (Bool.and_eq_true _ _ ▸ hcond).2
        exact decide_eq_true_eq.mp this
      constructor
      · subst hb hw hr hc
        cases hdw : cs.dropWhile isSpaceJS with
        | nil => rw [hdw] at hhd; exact Option.noConfusion hhd
        | cons d t =>
          have hd : d = '\x7d' := by
            rw [hdw] at hhd
            exact Option.some.inj hhd
          subst hd
          rw [List.nil_append]
          have hsplit : cs.takeWhile isSpaceJS ++ '\x7d' :: t = cs := by
            have := List.takeWhile_append_dropWhile (p := isSpaceJS) (l := cs)
            rw [hdw] at this
            exact this
          show '\n' :: cs = '\n' :: (cs.takeWhile isSpaceJS ++ '\x7d' :: t)
          rw [hsplit]
      · subst hw
        exact takeWhile_all isSpaceJS cs
    · rw [if_neg hcond] at h
      cases hrec : findLazyEnd cs with
      | none => rw [hrec] at h; exact Option.noConfusion h
      | some btr =>
        rw [hrec] at h
        cases btr with
        | mk b' wr' =>
          cases wr' with
          | mk w' r' =>
            rcases Prod.mk.injEq .. ▸ Option.some.inj h with ⟨hb, hwr⟩
            rcases Prod.mk.injEq .. ▸ hwr with ⟨hw, hr⟩
            obtain ⟨hcs, hall⟩ := ih b' w' r' hrec
            subst hb hw hr
            exact ⟨by rw [List.cons_append, ← hcs], hall⟩

/-- Laziness of the body group: inside the captured body, no newline is
followed (after optional whitespace, possibly running past the end of
the body) by a closing brace — every newline inside the body has a
later non-whitespace character in the body, and the first such
character is not a closing brace. -/
theorem findLazyEnd_min :
    ∀ (s b w r : Str), findLazyEnd s = some (b, w, r) →
      ∀ xs ys, b = xs ++ '\n' :: ys →
        ys.dropWhile isSpaceJS ≠ [] ∧ (ys.dropWhile isSpaceJS).head? ≠ some '\x7d' := by
  intro s
  induction s with
  | nil => intro b w r h; exact absurd h (by simp [findLazyEnd])
  | cons c cs ih =>
    intro b w r h
    rw [findLazyEnd] at h
    by_cases hcond : (c = '\n' && ((cs.dropWhile isSpaceJS).head? = some '\x7d' : Bool)) = true
    · rw [if_pos hcond] at h
      rcases Prod.mk.injEq .. ▸ Option.some.inj h with ⟨hb, _⟩
      intro xs ys hxy
      rw [← hb] at hxy
      exact absurd hxy.symm (by cases xs <;> simp)
    · rw [if_neg hcond] at h
      cases hrec : findLazyEnd cs with
      | none => rw [hrec] at h; exact Option.noConfusion h
      | some btr =>
        rw [hrec] at h
        cases btr with
        | mk b' wr' =>
          cases wr' with
          | mk w' r' =>
            rcases Prod.mk.injEq .. ▸ Option.some.inj h with ⟨hb, _⟩
            intro xs ys hxy
            rw [← hb] at hxy
            cases xs with
            | nil =>
              rw [List.nil_append] at hxy
              have hc : c = '\n' := (List.cons.injEq .. ▸ hxy).1
              have hys : b' = ys := (List.cons.injEq .. ▸ hxy).2
              have hX : ¬((cs.dropWhile isSpaceJS).head? = some '\x7d') := by
                intro hx
                exact hcond (by simp [hc, hx])
              obtain ⟨hcs, hall⟩ := findLazyEnd_decomp cs b' w' r' hrec
              rw [hys] at hcs
              constructor
              · intro he
                have hallys : ys.all isSpaceJS = true :=
                  List.all_eq_true.mpr (fun x hx => by
                    by_contra hpx
                    have : x ∈ ys.dropWhile isSpaceJS :=
                      mem_dropWhile_of_not isSpaceJS ys x hx
                        (Bool.eq_false_iff.mpr hpx)
                    rw [he] at this
                    cases this)
                apply hX
                rw [hcs, dropWhile_append_all isSpaceJS ys _ hallys,
                    List.dropWhile_cons_of_pos (by decide),
                    dropWhile_append_all isSpaceJS w' _ hall,
                    List.dropWhile_cons_of_neg (by decide)]
                rfl
              · intro hhd
                cases hdw : ys.dropWhile isSpaceJS with
                | nil => rw [hdw] at hhd; exact Option.noConfusion hhd
                | cons d t =>
                  have hd : d = '\x7d' := by
                    rw [hdw] at hhd
                    exact Option.some.inj hhd
                  apply hX
                  rw [hcs, dropWhile_append_ne isSpaceJS ys _ (by rw [hdw]; simp), hdw, hd]
                  rfl
            | cons x xs' =>
              have hb' : b' = xs' ++ '\n' :: ys := (List.cons.injEq .. ▸ hxy).2
              exact ih b' w' r' hrec xs' ys hb'

/-- The body of a successful interface match comes from the lazy body
group. -/
theorem interfaceAfterKw_body :
    ∀ (r0 : Str) (m : IfaceMatch) (rest : Str),
      interfaceAfterKw r0 = some (m, rest) →
      ∃ s5 w r : Str, findLazyEnd s5 = some (m.body, w, r) := by
  intro r0 m rest h
  unfold interfaceAfterKw at h
  simp only [] at h
  split at h
  · exact Option.noConfusion h
  · split at h
    · split at h
      · exact Option.noConfusion h
      · split at h
        · rename_i r4x r5x heqx
          split at h
          · rename_i body w3 rest5 hfle
            rcases Prod.mk.injEq .. ▸ Option.some.inj h with ⟨hm, _⟩
            refine ⟨r5x, w3, rest5, ?_⟩
            rw [← hm]
            exact hfle
          · exact Option.noConfusion h
        · exact Option.noConfusion h
    · exact Option.noConfusion h

/-- Every match the scanner yields comes from a successful anchored
attempt at some position. -/
theorem scanIfacesAux_mem :
    ∀ (fuel : Nat) (s : Str) (m : IfaceMatch), m ∈ scanIfacesAux fuel s →
      ∃ (s1 rest : Str), interfaceTryAt s1 = some (m, rest) := by
  intro fuel
  induction fuel with
  | zero => intro s m h; simp [scanIfacesAux] at h
  | succ f ih =>
    intro s m h
    cases s with
    | nil => simp [scanIfacesAux] at h
    | cons c cs =>
      rw [scanIfacesAux] at h
      cases ht : interfaceTryAt (c :: cs) with
      | none =>
        rw [ht] at h
        exact ih cs m h
      | some mr =>
        rw [ht] at h
        cases mr with
        | mk m2 rest2 =>
          rcases List.mem_cons.mp h with rfl | hm
          · exact ⟨c :: cs, rest2, ht⟩
          · exact ih rest2 m hm

/-- Anchored-attempt version of the previous lemma. -/
theorem interfaceTryAt_body :
    ∀ (s1 : Str) (m : IfaceMatch) (rest : Str),
      interfaceTryAt s1 = some (m, rest) →
      ∃ s5 w r : Str, findLazyEnd s5 = some (m.body, w, r) := by
  intro s1 m rest h
  unfold interfaceTryAt at h
  by_cases hp : isPrefixL (strL ("interface")) s1
  · rw [if_pos hp] at h
    exact interfaceAfterKw_body (s1.drop 9) m rest h
  · rw [if_neg hp] at h
    exact Option.noConfusion h

/-- The interfaceBody of an emitted block is the captured body of its
interface match. -/
theorem blockOfMatch_body :
    ∀ (content : Str) (mm : IfaceMatch) (b : ComponentBlock),
      blockOfMatch content mm = some b → b.interfaceBody = mm.body := by
  intro content mm b h
  unfold blockOfMatch at h
  simp only [] at h
  split at h
  · exact Option.noConfusion h
  · split at h
    · exact Option.noConfusion h
    · split at h
      · have hb := Option.some.inj h
        rw [← hb]
      · exact Option.noConfusion h

/-- Claim C2 as amended: the captured interfaceBody runs from the
opening brace to the first subsequent newline whose next non-whitespace
character is a closing brace, not necessarily to the matching top-level
brace: inside every emitted interfaceBody, each newline is followed
within the body by a non-whitespace character, and the first such
character is not a closing brace.  This coincides with the matching
top-level closing brace only when no nested closing brace begins a
line. -/
theorem claim2_amended :
    ∀ (content : Str) (b : ComponentBlock) (xs ys : Str),
      b ∈ extractComponentBlocks content →
      b.interfaceBody = xs ++ '\n' :: ys →
      ys.dropWhile isSpaceJS ≠ [] ∧ (ys.dropWhile isSpaceJS).head? ≠ some '\x7d' := by
  intro content b xs ys hmem hxy
  unfold extractComponentBlocks at hmem
  obtain ⟨mm, hscan, hbm⟩ := List.mem_filterMap.mp hmem
  have hbody : b.interfaceBody = mm.body := blockOfMatch_body content mm b hbm
  obtain ⟨s1, rest, ht⟩ := scanIfacesAux_mem content.length content mm hscan
  obtain ⟨s5, w, r, hfle⟩ := interfaceTryAt_body s1 mm rest ht
  exact findLazyEnd_min s5 mm.body w r hfle xs ys (by rw [← hbody, hxy])

/-- Witness for claim C2: the amended statement applied to the block of
the multi-line scenario input, split at its first newline. -/
theorem claim2_amended_witness :
    (strL (" text: string;\n disabled?: boolean;")).dropWhile isSpaceJS ≠ [] ∧
    ((strL (" text: string;\n disabled?: boolean;")).dropWhile isSpaceJS).head?
      ≠ some '\x7d' :=
  claim2_amended scenarioMultiLineInput buttonBlock []
    (strL (" text: string;\n disabled?: boolean;")) (by decide) (by decide)
